import Mathlib

/-!
Verification of `setup_ts.py`, the TypeScript build orchestration script of
the NNI repository (module `setup_ts`).

Shallow embedding: pure helpers of the script are translated as Lean
functions; the script's filesystem-mutating procedures are translated as
state transformers over a rose-tree filesystem model.  Python exceptions are
modelled by an explicit error type that is threaded together with the state
(an exception does not roll back filesystem effects already performed).
External behaviour (the operating system identifier, the detected JupyterLab
version, the `GLOBAL_TOOLCHAIN` environment variable, the contents of the
downloaded archives and the effects of `yarn` subprocesses) is supplied by an
explicit environment record.
-/

set_option autoImplicit false

namespace SetupTs

/-- `node_version = 'v16.3.0'` (setup_ts.py line 26). -/
def node_version : String := "v16.3.0"

/-- `yarn_version = 'v1.22.10'` (setup_ts.py line 27). -/
def yarn_version : String := "v1.22.10"

/-- Python `str.split(sep)` for a one-character separator, acting on the
character list of the string: splits at every occurrence of `sep`; the empty
string yields one empty part, matching `''.split('.') == ['']`. -/
def pySplit (sep : Char) : List Char → List (List Char)
  | [] => [[]]
  | c :: rest =>
    if c = sep then [] :: pySplit sep rest
    else
      match pySplit sep rest with
      | [] => [[c]]
      | part :: parts => (c :: part) :: parts

/-- The loop `while len(version.split('.')) < 3: version = version + '.0'` of
`copy_nni_node` (lines 234-235), with explicit fuel.  Each iteration appends
one `'.'`, so the number of dot-separated parts grows by one per step; any
string has at least one part, hence fuel 3 always reaches the loop's exit
condition (the claim theorem for C1 proves the result has at least three
parts). -/
def padLoop : Nat → List Char → List Char
  | 0, v => v
  | n + 1, v => if (pySplit '.' v).length < 3 then padLoop n (v ++ ['.', '0']) else v

/-- Version padding on character lists. -/
def padVersionCh (v : List Char) : List Char := padLoop 3 v

/-- Version padding as applied to the `version` argument of `copy_nni_node`. -/
def padVersion (v : String) : String := String.mk (padVersionCh v.data)

/-- JSON values as handled by `json.load` / `json.dump`.  Object fields keep
insertion order, like Python dicts. -/
inductive JVal where
  | jnull : JVal
  | jbool : Bool → JVal
  | jnum : Int → JVal
  | jstr : String → JVal
  | jarr : List JVal → JVal
  | jobj : List (String × JVal) → JVal

/-- Python dict lookup `d[k]` on an ordered field list (first match). -/
def objGet (fields : List (String × JVal)) (k : String) : Option JVal :=
  match fields with
  | [] => none
  | kv :: rest => if kv.1 = k then some kv.2 else objGet rest k

/-- Python dict assignment `d[k] = v`: replaces the value in place if the key
is present, otherwise appends the new binding. -/
def objSet (fields : List (String × JVal)) (k : String) (v : JVal) :
    List (String × JVal) :=
  match fields with
  | [] => [(k, v)]
  | kv :: rest => if kv.1 = k then (k, v) :: rest else kv :: objSet rest k v

/-- Python exceptions raised by the operations the script performs. -/
inductive PyErr where
  | fileNotFound : List String → PyErr
  | fileExists : List String → PyErr
  | notADirectory : List String → PyErr
  | isADirectory : List String → PyErr
  | keyError : String → PyErr
  | typeError : PyErr
  | jsonError : PyErr
  | httpError : String → PyErr
  | calledProcessError : List String → List String → PyErr
  | runtimeError : String → PyErr
deriving DecidableEq, Repr

/-- Python nested dict assignment `j[k1][k2] = v` as performed by
`update_package` (lines 138-142): `j` and `j[k1]` must be dicts (`KeyError`
if `k1` is missing, `TypeError` otherwise), then `k2` is bound in the inner
dict. -/
def jset2 (j : JVal) (k1 k2 : String) (v : JVal) : Except PyErr JVal :=
  match j with
  | .jobj fields =>
    match objGet fields k1 with
    | some (.jobj inner) => .ok (.jobj (objSet fields k1 (.jobj (objSet inner k2 v))))
    | some _ => .error .typeError
    | none => .error (.keyError k1)
  | _ => .error .typeError

/-- Contents of a regular file: a parsed JSON document, text, or opaque
binary data (such as the node executable). -/
inductive FileData where
  | jsonF : JVal → FileData
  | textF : String → FileData
  | binF : Nat → FileData

/-- A filesystem entry: a regular file, a directory with named children
(in order), or a symbolic link recording its target path.  The relative-path
computation of `_symlink` (line 266) is abstracted away: the model records
the path the link designates, which is what the relative link resolves to. -/
inductive FsEntry where
  | file : FileData → FsEntry
  | dir : List (String × FsEntry) → FsEntry
  | symlink : List String → FsEntry

/-- Directory-children lookup (directory entries have unique names in a real
filesystem; lookup takes the first match). -/
def getC (cs : List (String × FsEntry)) (n : String) : Option FsEntry :=
  match cs with
  | [] => none
  | kv :: rest => if kv.1 = n then some kv.2 else getC rest n

/-- Replace the child named `n` (keeping its position), or append it. -/
def setC (cs : List (String × FsEntry)) (n : String) (v : FsEntry) :
    List (String × FsEntry) :=
  match cs with
  | [] => [(n, v)]
  | kv :: rest => if kv.1 = n then (n, v) :: rest else kv :: setC rest n v

/-- Remove every child named `n`. -/
def delC (cs : List (String × FsEntry)) (n : String) : List (String × FsEntry) :=
  cs.filter (fun kv => kv.1 != n)

/-- Look up the entry at a path (a list of name segments). -/
def getE : FsEntry → List String → Option FsEntry
  | e, [] => some e
  | .dir cs, n :: rest => (getC cs n).bind (fun c => getE c rest)
  | _, _ :: _ => none

/-- Write the entry at a path.  Fails (`none`) when an intermediate segment
is missing or is not a directory — like opening a file for writing when its
parent directory does not exist. -/
def setE : FsEntry → List String → FsEntry → Option FsEntry
  | _, [], v => some v
  | .dir cs, [n], v => some (.dir (setC cs n v))
  | .dir cs, n :: n2 :: rest, v =>
    (getC cs n).bind
      (fun c => (setE c (n2 :: rest) v).map (fun c1 => FsEntry.dir (setC cs n c1)))
  | _, _ :: _, _ => none

/-- Write the entry at a path, creating missing intermediate directories
(the `os.makedirs` behaviour of `shutil.copytree`).  Fails when an
intermediate segment exists but is not a directory. -/
def setMk : FsEntry → List String → FsEntry → Option FsEntry
  | _, [], v => some v
  | .dir cs, [n], v => some (.dir (setC cs n v))
  | .dir cs, n :: n2 :: rest, v =>
    (setMk ((getC cs n).getD (.dir [])) (n2 :: rest) v).map
      (fun c1 => FsEntry.dir (setC cs n c1))
  | _, _ :: _, _ => none

/-- Remove the entry at a path (no-op when the path does not exist). -/
def removeE : FsEntry → List String → FsEntry
  | e, [] => e
  | .dir cs, [n] => .dir (delC cs n)
  | .dir cs, n :: n2 :: rest =>
    .dir ((getC cs n).elim cs (fun c => setC cs n (removeE c (n2 :: rest))))
  | e, _ :: _ => e

/-- `Path(p).is_file()` in the model (symbolic links are not traversed; the
scenarios settled here never test a link with `is_file`). -/
def isFileAt (r : FsEntry) (p : List String) : Bool :=
  match getE r p with
  | some (.file _) => true
  | _ => false

/-- `Path(p).exists()` in the model. -/
def existsAt (r : FsEntry) (p : List String) : Bool :=
  (getE r p).isSome

/-- Lookup of a named child in an arbitrary entry (none for non-directories);
the one-step building block of `getE`. -/
def childLookup (e : FsEntry) (n : String) : Option FsEntry :=
  match e with
  | .dir cs => getC cs n
  | _ => none

/-- Paths `p` and `q` are independent: neither is a prefix of the other, so
a write or removal at one cannot be observed at the other. -/
def indepB : List String → List String → Bool
  | [], _ => false
  | _, [] => false
  | a :: p, b :: q => a != b || indepB p q

/-- The last entry named `n` in an archive listing — the value that survives
`extractall`'s sequential overwriting merge (`extractOp` folds `setC` over
the entries, so a later entry wins). -/
def archLookup (l : List (String × FsEntry)) (n : String) : Option FsEntry :=
  match l with
  | [] => none
  | kv :: rest =>
    (archLookup rest n).or (if kv.1 = n then some kv.2 else none)

/-- Process state: the filesystem root (a directory), the list of URLs
fetched so far, and the lines printed so far. -/
structure St where
  root : FsEntry
  downloads : List String
  stdout : List String

/-- State-and-exception monad for the script's procedures.  An exception
carries the state at the raise point: Python does not roll back filesystem
effects. -/
def PyM (α : Type) : Type := St → Except PyErr α × St

instance : Monad PyM where
  pure a := fun s => (Except.ok a, s)
  bind m f := fun s =>
    match m s with
    | (Except.ok a, s1) => f a s1
    | (Except.error e, s1) => (Except.error e, s1)

/-- Raise an exception. -/
def raiseE {α : Type} (e : PyErr) : PyM α := fun s => (Except.error e, s)

/-- Read the filesystem root. -/
def getRootM : PyM FsEntry := fun s => (Except.ok s.root, s)

/-- Replace the filesystem root. -/
def setRootM (r : FsEntry) : PyM Unit := fun s => (Except.ok (), { s with root := r })

/-- Install a computed root, or raise when the filesystem write failed
(missing parent directory and similar). -/
def setRootOr (e : PyErr) (o : Option FsEntry) : PyM Unit :=
  match o with
  | some r1 => setRootM r1
  | none => raiseE e

/-- `_print` (line 270): record an output line. -/
def printM (msg : String) : PyM Unit :=
  fun s => (Except.ok (), { s with stdout := s.stdout ++ [msg] })

/-- Lift a pure `Except` computation (pure Python code that may raise). -/
def liftExc {α : Type} (x : Except PyErr α) : PyM α := fun s => (x, s)

/-- Python `try: ... except Exception: ...`. -/
def tryAll {α : Type} (m : PyM α) (h : PyErr → PyM α) : PyM α := fun s =>
  match m s with
  | (Except.ok a, s1) => (Except.ok a, s1)
  | (Except.error e, s1) => h e s1

/-- The archive format of the node distribution: `tarfile.open(..., 'r:xz')`
on Linux/macOS, `ZipFile(...)` on Windows (lines 81 and 93). -/
inductive ExtractorKind where
  | tarXz : ExtractorKind
  | zip : ExtractorKind
deriving DecidableEq, Repr

/-- The platform-dependent constants bound by the module-level branch on
`sys.platform` (lines 77-99).  `node_executable_in_tarball_segs` is the
in-archive path `node_executable_in_tarball` split at `'/'` into segments,
for use by the path-based filesystem model. -/
structure Profile where
  node_executable : String
  node_spec : String
  node_download_url : String
  node_extractor : ExtractorKind
  node_executable_in_tarball : String
  node_executable_in_tarball_segs : List String
  yarn_executable : String
  yarn_download_url : String
  path_env_seperator : String
deriving DecidableEq, Repr

/-- The module-level platform branch (lines 77-102) as a function of the
`sys.platform` identifier: binds the profile for the two supported systems
and raises `RuntimeError('Unsupported system')` for every other value. -/
def resolvePlatform (platform : String) : Except PyErr Profile :=
  if platform = "linux" ∨ platform = "darwin" then
    Except.ok
      { node_executable := "node"
        node_spec := "node-" ++ node_version ++ "-" ++ platform ++ "-x64"
        node_download_url :=
          "https://nodejs.org/dist/" ++ node_version ++ "/" ++
            ("node-" ++ node_version ++ "-" ++ platform ++ "-x64") ++ ".tar.xz"
        node_extractor := .tarXz
        node_executable_in_tarball := "bin/node"
        node_executable_in_tarball_segs := ["bin", "node"]
        yarn_executable := "yarn"
        yarn_download_url :=
          "https://github.com/yarnpkg/yarn/releases/download/" ++ yarn_version ++
            "/yarn-" ++ yarn_version ++ ".tar.gz"
        path_env_seperator := ":" }
  else if platform = "win32" then
    Except.ok
      { node_executable := "node.exe"
        node_spec := "node-" ++ node_version ++ "-win-x64"
        node_download_url :=
          "https://nodejs.org/dist/" ++ node_version ++ "/" ++
            ("node-" ++ node_version ++ "-win-x64") ++ ".zip"
        node_extractor := .zip
        node_executable_in_tarball := "node.exe"
        node_executable_in_tarball_segs := ["node.exe"]
        yarn_executable := "yarn.cmd"
        yarn_download_url :=
          "https://github.com/yarnpkg/yarn/releases/download/" ++ yarn_version ++
            "/yarn-" ++ yarn_version ++ ".tar.gz"
        path_env_seperator := ";" }
  else Except.error (.runtimeError "Unsupported system")

/-- The profile bound on `sys.platform == 'linux'`. -/
def profLinux : Profile :=
  { node_executable := "node"
    node_spec := "node-v16.3.0-linux-x64"
    node_download_url := "https://nodejs.org/dist/v16.3.0/node-v16.3.0-linux-x64.tar.xz"
    node_extractor := .tarXz
    node_executable_in_tarball := "bin/node"
    node_executable_in_tarball_segs := ["bin", "node"]
    yarn_executable := "yarn"
    yarn_download_url :=
      "https://github.com/yarnpkg/yarn/releases/download/v1.22.10/yarn-v1.22.10.tar.gz"
    path_env_seperator := ":" }

/-- External behaviour the script depends on: the platform identifier, the
detected JupyterLab version (result of `_get_jupyter_lab_version()`), the
`GLOBAL_TOOLCHAIN` flag, `sys.exec_prefix`, the outcomes of the two archive
downloads, the directory trees contained in the two archives, and for each
`yarn` invocation (keyed by working directory and arguments) whether it
succeeds and how it transforms the filesystem on success. -/
structure Env where
  platform : String
  jupyterLabVersion : String
  globalToolchain : Bool
  execPrefix : List String
  nodeOk : Bool
  yarnDlOk : Bool
  nodeArchive : List (String × FsEntry)
  yarnArchive : List (String × FsEntry)
  yarnOk : List String → List String → Bool
  yarnFx : List String → List String → FsEntry → FsEntry

/-- `jupyter_lab_major_version` (line 36): the first dot-separated component
of the detected JupyterLab version string. -/
def jupyterLabMajor (env : Env) : String :=
  String.mk ((pySplit '.' env.jupyterLabVersion.data).headD [])

/-- `json.load(open(p))`: the path must name a regular file holding a JSON
document. -/
def jsonLoad (p : List String) : PyM JVal := do
  let r ← getRootM
  match getE r p with
  | some (.file (.jsonF j)) => pure j
  | some (.file _) => raiseE .jsonError
  | some (.dir _) => raiseE (.isADirectory p)
  | some (.symlink _) => raiseE (.fileNotFound p)
  | none => raiseE (.fileNotFound p)

/-- `json.dump(j, open(p, 'w'), indent=2)`: overwrite or create the file
(fails on an existing directory or a missing parent). -/
def jsonDump (p : List String) (j : JVal) : PyM Unit := do
  let r ← getRootM
  match getE r p with
  | some (.dir _) => raiseE (.isADirectory p)
  | _ => setRootOr (.fileNotFound p) (setE r p (.file (.jsonF j)))

/-- `Path(p).write_text(txt)`. -/
def writeTextOp (p : List String) (txt : String) : PyM Unit := do
  let r ← getRootM
  match getE r p with
  | some (.dir _) => raiseE (.isADirectory p)
  | _ => setRootOr (.fileNotFound p) (setE r p (.file (.textF txt)))

/-- `Path(p).mkdir(exist_ok=existOk)`. -/
def mkdirOp (p : List String) (existOk : Bool) : PyM Unit := do
  let r ← getRootM
  match getE r p with
  | some (.dir _) => if existOk then pure () else raiseE (.fileExists p)
  | some _ => raiseE (.fileExists p)
  | none => setRootOr (.fileNotFound p) (setE r p (.dir []))

/-- `shutil.rmtree(p, ignore_errors=True)`: removes the directory tree at
`p`; errors (missing path, or a non-directory at `p`) are suppressed, in
which case nothing is removed. -/
def rmtreeIgnoreOp (p : List String) : PyM Unit := do
  let r ← getRootM
  match getE r p with
  | some (.dir _) => setRootM (removeE r p)
  | _ => pure ()

/-- `shutil.rmtree(p)` without `ignore_errors`. -/
def rmtreeOp (p : List String) : PyM Unit := do
  let r ← getRootM
  match getE r p with
  | some (.dir _) => setRootM (removeE r p)
  | some _ => raiseE (.notADirectory p)
  | none => raiseE (.fileNotFound p)

/-- `Path(p).unlink()` / `os.remove(p)`. -/
def unlinkOp (p : List String) : PyM Unit := do
  let r ← getRootM
  match getE r p with
  | some (.dir _) => raiseE (.isADirectory p)
  | some _ => setRootM (removeE r p)
  | none => raiseE (.fileNotFound p)

/-- `shutil.copy(src, dst)`: copies a regular file; when `dst` is an
existing directory the copy goes inside it under the source's base name. -/
def copyOp (src dst : List String) : PyM Unit := do
  let r ← getRootM
  match getE r src with
  | some (.file d) =>
    (match getE r dst with
     | some (.dir _) =>
       setRootOr (.fileNotFound dst) (setE r (dst ++ [src.getLastD ""]) (.file d))
     | _ => setRootOr (.fileNotFound dst) (setE r dst (.file d)))
  | some _ => raiseE (.isADirectory src)
  | none => raiseE (.fileNotFound src)

/-- `shutil.copyfile(src, dst)`: copies a regular file over `dst` (fails if
`dst` is a directory). -/
def copyfileOp (src dst : List String) : PyM Unit := do
  let r ← getRootM
  match getE r src with
  | some (.file d) =>
    (match getE r dst with
     | some (.dir _) => raiseE (.isADirectory dst)
     | _ => setRootOr (.fileNotFound dst) (setE r dst (.file d)))
  | some _ => raiseE (.isADirectory src)
  | none => raiseE (.fileNotFound src)

/-- `shutil.copytree(src, dst)`: recursively copies the directory at `src`
to `dst`; `dst` must not exist and missing intermediate directories are
created (`os.makedirs`). -/
def copytreeOp (src dst : List String) : PyM Unit := do
  let r ← getRootM
  match getE r src with
  | some (.dir cs) =>
    (match getE r dst with
     | some _ => raiseE (.fileExists dst)
     | none => setRootOr (.fileNotFound dst) (setMk r dst (.dir cs)))
  | some _ => raiseE (.notADirectory src)
  | none => raiseE (.fileNotFound src)

/-- `Path(old).rename(new)`. -/
def renameOp (old new : List String) : PyM Unit := do
  let r ← getRootM
  match getE r old with
  | some e => setRootOr (.fileNotFound new) (setE (removeE r old) new e)
  | none => raiseE (.fileNotFound old)

/-- `_symlink(target_file, link_location)` (lines 263-267):
`link.symlink_to(...)` fails if the link location already exists. -/
def symlinkOp (target link : List String) : PyM Unit := do
  let r ← getRootM
  match getE r link with
  | some _ => raiseE (.fileExists link)
  | none => setRootOr (.fileNotFound link) (setE r link (.symlink target))

/-- `requests.get(url)` followed by `resp.raise_for_status()`: the request
is recorded, and a non-success status raises. -/
def httpGetOp (url : String) (ok : Bool) : PyM Unit := fun s =>
  let s1 := { s with downloads := s.downloads ++ [url] }
  if ok then (Except.ok (), s1) else (Except.error (.httpError url), s1)

/-- `tarball.extractall(dst)`: merge the archive's top-level entries into the
existing directory at `dst` (later archive entries overwrite earlier ones and
pre-existing children of the same name). -/
def extractOp (dst : List String) (entries : List (String × FsEntry)) : PyM Unit := do
  let r ← getRootM
  match getE r dst with
  | some (.dir cs) =>
    setRootOr (.fileNotFound dst)
      (setE r dst (.dir (entries.foldl (fun acc ne => setC acc ne.1 ne.2) cs)))
  | _ => raiseE (.fileNotFound dst)

/-- `_yarn(path, *args)` (lines 256-260): `subprocess.run(..., cwd=path,
check=True)`.  The working directory must exist; the environment decides
whether the invocation succeeds and how it transforms the filesystem.
Whether the global or the downloaded yarn executable is used only changes
the subprocess's command line and environment, which the model leaves to
the environment's success/effect functions. -/
def yarnOp (env : Env) (cwd : List String) (args : List String) : PyM Unit := do
  let r ← getRootM
  match getE r cwd with
  | some (.dir _) =>
    if env.yarnOk cwd args then setRootM (env.yarnFx cwd args r)
    else raiseE (.calledProcessError cwd args)
  | _ => raiseE (.fileNotFound cwd)

/-- `download_toolchain()` (lines 105-131): short-circuits when the node
executable is already present at `toolchain/node/<in-archive path>`;
otherwise downloads and extracts the node and yarn archives and renames the
version-qualified extracted directories to `toolchain/node` and
`toolchain/yarn`. -/
def download_toolchain (env : Env) (p : Profile) : PyM Unit := do
  let r ← getRootM
  if isFileAt r (["toolchain", "node"] ++ p.node_executable_in_tarball_segs) then
    pure ()
  else
    mkdirOp ["toolchain"] true
    printM ("Downloading node.js from " ++ p.node_download_url)
    httpGetOp p.node_download_url env.nodeOk
    printM "Extracting node.js"
    extractOp ["toolchain"] env.nodeArchive
    rmtreeIgnoreOp ["toolchain", "node"]
    renameOp ["toolchain", p.node_spec] ["toolchain", "node"]
    printM ("Downloading yarn from " ++ p.yarn_download_url)
    httpGetOp p.yarn_download_url env.yarnDlOk
    printM "Extracting yarn"
    extractOp ["toolchain"] env.yarnArchive
    rmtreeIgnoreOp ["toolchain", "yarn"]
    renameOp ["toolchain", "yarn-" ++ yarn_version] ["toolchain", "yarn"]

/-- `update_package()` (lines 133-144): when the detected JupyterLab major
version is `'2'`, snapshot `ts/jupyter_extension/package.json` to the sidecar
`.package_default.json`, then rewrite the build script, pin two dependency
ranges, set the extension output directory, and write the patched manifest
back.  A no-op for every other major version. -/
def update_package (env : Env) : PyM Unit := do
  if jupyterLabMajor env = "2" then
    let pj ← jsonLoad ["ts", "jupyter_extension", "package.json"]
    jsonDump ["ts", "jupyter_extension", ".package_default.json"] pj
    let pj1 ← liftExc (jset2 pj "scripts" "build" (.jstr "tsc && jupyter labextension link ."))
    let pj2 ← liftExc (jset2 pj1 "dependencies" "@jupyterlab/application" (.jstr "^2.3.0"))
    let pj3 ← liftExc (jset2 pj2 "dependencies" "@jupyterlab/launcher" (.jstr "^2.3.0"))
    let pj4 ← liftExc (jset2 pj3 "jupyterlab" "outputDir" (.jstr "build"))
    jsonDump ["ts", "jupyter_extension", "package.json"] pj4
    printM "updated package.json"
  else
    pure ()

/-- `restore_package()` (lines 146-151): when the detected JupyterLab major
version is `'2'`, write the sidecar snapshot back over the manifest and
delete the sidecar.  A no-op for every other major version. -/
def restore_package (env : Env) : PyM Unit := do
  if jupyterLabMajor env = "2" then
    let pj ← jsonLoad ["ts", "jupyter_extension", ".package_default.json"]
    printM "stored package.json"
    jsonDump ["ts", "jupyter_extension", "package.json"] pj
    unlinkOp ["ts", "jupyter_extension", ".package_default.json"]
  else
    pure ()

/-- `prepare_nni_node()` (lines 153-164): recreate a clean `nni_node`
directory, write the marker `__init__.py`, and copy the node runtime from
the fixed local path `toolchain/node/<in-archive path>`. -/
def prepare_nni_node (p : Profile) : PyM Unit := do
  rmtreeIgnoreOp ["nni_node"]
  mkdirOp ["nni_node"] false
  writeTextOp ["nni_node", "__init__.py"] "\"\"\"NNI node.js modules.\"\"\"\n"
  copyOp (["toolchain", "node"] ++ p.node_executable_in_tarball_segs)
    ["nni_node", p.node_executable]

/-- `compile_ts(release)` (lines 167-192): install and build the manager and
web-UI modules (failures propagate), relocate the manager's `config`
directory into its `dist` output, then install and build the JupyterLab
extension — fatally when `release` is truthy, inside a catch-all `try` that
logs and skips otherwise. -/
def compile_ts (env : Env) (release : String) : PyM Unit := do
  printM "Building NNI manager"
  yarnOp env ["ts", "nni_manager"] []
  yarnOp env ["ts", "nni_manager"] ["build"]
  rmtreeIgnoreOp ["ts", "nni_manager", "dist", "config"]
  copytreeOp ["ts", "nni_manager", "config"] ["ts", "nni_manager", "dist", "config"]
  printM "Building web UI"
  yarnOp env ["ts", "webui"] []
  yarnOp env ["ts", "webui"] ["build"]
  printM "Building JupyterLab extension"
  if release ≠ "" then
    yarnOp env ["ts", "jupyter_extension"] []
    yarnOp env ["ts", "jupyter_extension"] ["build"]
  else
    tryAll
      (do
        yarnOp env ["ts", "jupyter_extension"] []
        yarnOp env ["ts", "jupyter_extension"] ["build"])
      (fun _ => do
        printM "Failed to build JupyterLab extension, skip for develop mode"
        printM "traceback.format_exc()")

/-- Which notebook-integration branch an assembly strategy takes. -/
inductive JupyterBranch where
  | legacy : JupyterBranch
  | distDir : JupyterBranch
  | skip : JupyterBranch
deriving DecidableEq, Repr

/-- Branch selection of `symlink_nni_node` (lines 209-213): the legacy
branch when the JupyterLab major version is `'2'`, otherwise the `dist/`
branch exactly when `ts/jupyter_extension/dist` exists. -/
def symlinkJupyterBranch (major : String) (distExists : Bool) : JupyterBranch :=
  if major = "2" then .legacy
  else if distExists then .distDir
  else .skip

/-- Branch selection of `copy_nni_node` (lines 244-248): the legacy branch
when the JupyterLab major version is `'2'`, otherwise the `dist/` branch when
`version or Path('ts/jupyter_extension/dist').exists()`. -/
def copyJupyterBranch (major : String) (version : String) (distExists : Bool) :
    JupyterBranch :=
  if major = "2" then .legacy
  else if (version != "") || distExists then .distDir
  else .skip

/-- The loop `for path in Path('ts/nni_manager/dist').iterdir(): _symlink(...)`
of `symlink_nni_node` (lines 202-203), over the child names of `dist`. -/
def linkDistEntries : List String → PyM Unit
  | [] => pure ()
  | n :: rest => do
    symlinkOp ["ts", "nni_manager", "dist", n] ["nni_node", n]
    linkDistEntries rest

/-- `symlink_nni_node()` (lines 195-213). -/
def symlink_nni_node (env : Env) : PyM Unit := do
  printM "Creating symlinks"
  let r ← getRootM
  match getE r ["ts", "nni_manager", "dist"] with
  | some (.dir cs) =>
    linkDistEntries (cs.map (fun kv => kv.1))
    symlinkOp ["ts", "nni_manager", "package.json"] ["nni_node", "package.json"]
    symlinkOp ["ts", "nni_manager", "node_modules"] ["nni_node", "node_modules"]
    symlinkOp ["ts", "webui", "build"] ["nni_node", "static"]
    let r1 ← getRootM
    match symlinkJupyterBranch (jupyterLabMajor env)
        (existsAt r1 ["ts", "jupyter_extension", "dist"]) with
    | .legacy => do
      symlinkOp ["ts", "jupyter_extension", "build"] ["nni_node", "jupyter-extension"]
      symlinkOp (env.execPrefix ++ ["share", "jupyter", "lab", "extensions"])
        ["nni_node", "jupyter-extension", "extensions"]
    | .distDir =>
      symlinkOp ["ts", "jupyter_extension", "dist"] ["nni_node", "jupyter-extension"]
    | .skip => pure ()
  | _ => raiseE (.fileNotFound ["ts", "nni_manager", "dist"])

/-- One iteration of the copy loop of `copy_nni_node` (lines 226-230):
directories are copied recursively, files directly — except the build-cache
file `nni_manager.tsbuildinfo`. -/
def copyOneDist (n : String) (e : FsEntry) : PyM Unit :=
  match e with
  | .dir _ => copytreeOp ["ts", "nni_manager", "dist", n] ["nni_node", n]
  | _ =>
    if n ≠ "nni_manager.tsbuildinfo" then
      copyfileOp ["ts", "nni_manager", "dist", n] ["nni_node", n]
    else pure ()

/-- The copy loop of `copy_nni_node` over the children of
`ts/nni_manager/dist`. -/
def copyDistEntries : List (String × FsEntry) → PyM Unit
  | [] => pure ()
  | (n, e) :: rest => do
    copyOneDist n e
    copyDistEntries rest

/-- The manifest version rewrite of `copy_nni_node` (lines 232-236): when a
version string is supplied (truthy), pad it to at least three dot-separated
parts and set it as the manifest's `version` field; the manifest must be a
JSON object for the field assignment. -/
def releaseManifest (pj : JVal) (version : String) : Except PyErr JVal :=
  if version ≠ "" then
    match pj with
    | .jobj fields => .ok (.jobj (objSet fields "version" (.jstr (padVersion version))))
    | _ => .error .typeError
  else .ok pj

/-- `copy_nni_node(version)` (lines 216-248).  The absolute path
`str(Path('nni_node').resolve())` passed to yarn is abstracted to the
relative name, since it is an opaque command-line argument to the
environment-supplied subprocess. -/
def copy_nni_node (env : Env) (version : String) : PyM Unit := do
  printM "Copying files"
  let r ← getRootM
  match getE r ["ts", "nni_manager", "dist"] with
  | some (.dir cs) =>
    copyDistEntries cs
    let pj ← jsonLoad ["ts", "nni_manager", "package.json"]
    let pj1 ← liftExc (releaseManifest pj version)
    jsonDump ["nni_node", "package.json"] pj1
    yarnOp env ["ts", "nni_manager"] ["--prod", "--cwd", "nni_node"]
    copytreeOp ["ts", "webui", "build"] ["nni_node", "static"]
    let r1 ← getRootM
    match copyJupyterBranch (jupyterLabMajor env) version
        (existsAt r1 ["ts", "jupyter_extension", "dist"]) with
    | .legacy => do
      copytreeOp ["ts", "jupyter_extension", "build"]
        ["nni_node", "jupyter-extension", "build"]
      copytreeOp (env.execPrefix ++ ["share", "jupyter", "lab", "extensions"])
        ["nni_node", "jupyter-extension", "extensions"]
    | .distDir =>
      copytreeOp ["ts", "jupyter_extension", "dist"] ["nni_node", "jupyter-extension"]
    | .skip => pure ()
  | _ => raiseE (.fileNotFound ["ts", "nni_manager", "dist"])

/-- `build(release)` (lines 38-57). -/
def build (env : Env) (p : Profile) (release : String) : PyM Unit := do
  if (release != "") || !env.globalToolchain then
    download_toolchain env p
  else
    pure ()
  prepare_nni_node p
  update_package env
  compile_ts env release
  if (release != "") || env.platform == "win32" then
    copy_nni_node env release
  else
    symlink_nni_node env
  restore_package env

/-- The fixed `generated_files` list (lines 278-290), as segment paths. -/
def generated_files : List (List String) :=
  [["ts", "nni_manager", "dist"],
   ["ts", "nni_manager", "node_modules"],
   ["ts", "webui", "build"],
   ["ts", "webui", "node_modules"],
   ["ts", "nni_manager", ".nyc_output"],
   ["ts", "nni_manager", "coverage"],
   ["ts", "nni_manager", "exp_profile.json"],
   ["ts", "nni_manager", "metrics.json"],
   ["ts", "nni_manager", "trial_jobs.json"]]

/-- One iteration of the clean loop (lines 66-71): unlink a file or symbolic
link, remove a directory tree, skip a missing path. -/
def cleanOne (pth : List String) : PyM Unit := do
  let r ← getRootM
  match getE r pth with
  | some (.symlink _) => unlinkOp pth
  | some (.file _) => unlinkOp pth
  | some (.dir _) => rmtreeOp pth
  | none => pure ()

/-- The clean loop over `generated_files`. -/
def cleanList : List (List String) → PyM Unit
  | [] => pure ()
  | pth :: rest => do
    cleanOne pth
    cleanList rest

/-- `clean(clean_all=False)` (lines 59-74). -/
def clean (cleanAll : Bool) : PyM Unit := do
  rmtreeIgnoreOp ["nni_node"]
  cleanList generated_files
  if cleanAll then rmtreeIgnoreOp ["toolchain"] else pure ()

/-! ### Concrete environments and states used by witnesses and
counterexamples -/

/-- A node archive listing containing the expected version-qualified
directory with the executable inside. -/
def nodeArchC5 : List (String × FsEntry) :=
  [("node-v16.3.0-linux-x64", .dir [("bin", .dir [("node", .file (.binF 0))])])]

/-- A yarn archive listing containing the version-qualified directory. -/
def yarnArchC5 : List (String × FsEntry) :=
  [("yarn-v1.22.10", .dir [("bin", .dir [("yarn", .file (.binF 1))])])]

/-- Concrete environment for the C5 witness: Linux, working downloads. -/
def envC5 : Env :=
  { platform := "linux", jupyterLabVersion := "3.x", globalToolchain := false,
    execPrefix := ["usr"], nodeOk := true, yarnDlOk := true,
    nodeArchive := nodeArchC5, yarnArchive := yarnArchC5,
    yarnOk := fun _ _ => true, yarnFx := fun _ _ r => r }

/-- Concrete state for the C5 witness: an empty `toolchain` directory. -/
def stC5 : St :=
  { root := .dir [("toolchain", .dir [])], downloads := [], stdout := [] }

/-- A minimal well-formed `ts/jupyter_extension/package.json` document. -/
def pjC3 : JVal :=
  .jobj [("scripts", .jobj []), ("dependencies", .jobj []),
    ("jupyterlab", .jobj [])]

/-- The document `update_package` produces from `pjC3`. -/
def pjC3patched : JVal :=
  .jobj [("scripts", .jobj [("build", .jstr "tsc && jupyter labextension link .")]),
    ("dependencies", .jobj [("@jupyterlab/application", .jstr "^2.3.0"),
      ("@jupyterlab/launcher", .jstr "^2.3.0")]),
    ("jupyterlab", .jobj [("outputDir", .jstr "build")])]

/-- Concrete environment for C3: JupyterLab major version `"2"` detected,
global toolchain, and a package manager whose every invocation fails — so
compilation raises after the manifest has been patched. -/
def envC3 : Env :=
  { platform := "linux", jupyterLabVersion := "2.1.0", globalToolchain := true,
    execPrefix := ["usr"], nodeOk := true, yarnDlOk := true,
    nodeArchive := [], yarnArchive := [],
    yarnOk := fun _ _ => false, yarnFx := fun _ _ r => r }

/-- Concrete state for C3: downloaded toolchain present, source trees
present, well-formed extension manifest. -/
def stC3 : St :=
  { root := .dir
      [("toolchain", .dir [("node", .dir [("bin", .dir [("node",
          .file (.binF 0))])])]),
       ("ts", .dir
         [("nni_manager", .dir []),
          ("jupyter_extension", .dir [("package.json", .file (.jsonF pjC3))])])],
    downloads := [], stdout := [] }

/-- Concrete environment for the C10 witness: `GLOBAL_TOOLCHAIN` set. -/
def envC10 : Env :=
  { platform := "linux", jupyterLabVersion := "3.x", globalToolchain := true,
    execPrefix := ["usr"], nodeOk := true, yarnDlOk := true,
    nodeArchive := [], yarnArchive := [],
    yarnOk := fun _ _ => true, yarnFx := fun _ _ r => r }

/-- Concrete state for the C10 witness: no downloaded toolchain on disk. -/
def stC10 : St :=
  { root := .dir [("ts", .dir [])], downloads := [], stdout := [] }

/-- A computation that never prints. -/
def NoPrint {α : Type} (m : PyM α) : Prop :=
  ∀ s : St, ((m s).2).stdout = s.stdout

/-- A computation only extends stdout, and never with the banner line of
either artifact-assembly strategy (`copy_nni_node` prints "Copying files",
`symlink_nni_node` prints "Creating symlinks"; no other operation prints
either line). -/
def StdoutExt {α : Type} (m : PyM α) : Prop :=
  ∀ s : St, ∃ t, ((m s).2).stdout = s.stdout ++ t ∧
    "Copying files" ∉ t ∧ "Creating symlinks" ∉ t

/-- Filesystem for the C4 development-mode scenario: downloaded toolchain,
the three module source trees (with a compiled `dist` and a `config`
directory for the manager and a `build` output for the web UI), no
`nni_node`. -/
def devRoot (fdn fmain fpkg : FileData) (ccs nmcs wbcs : List (String × FsEntry)) :
    FsEntry :=
  .dir [("toolchain", .dir [("node", .dir [("bin", .dir [("node", .file fdn)])])]),
    ("ts", .dir
      [("nni_manager", .dir
        [("dist", .dir [("main.js", .file fmain)]),
         ("config", .dir ccs),
         ("package.json", .file fpkg),
         ("node_modules", .dir nmcs)]),
       ("webui", .dir [("build", .dir wbcs)]),
       ("jupyter_extension", .dir [])])]

/-- Concrete environment for the C4 witness: development build on Linux,
`GLOBAL_TOOLCHAIN` set, every yarn invocation succeeding except the
JupyterLab extension install. -/
def envC4 : Env :=
  { platform := "linux", jupyterLabVersion := "3.x", globalToolchain := true,
    execPrefix := ["usr"], nodeOk := true, yarnDlOk := true,
    nodeArchive := [], yarnArchive := [],
    yarnOk := fun cwd _ => !(cwd == ["ts", "jupyter_extension"]),
    yarnFx := fun _ _ r => r }

/-- The per-entry copy decision of the `copy_nni_node` loop (lines 226-230):
a directory is always copied recursively; a plain file is copied unless it is
the build-cache file `nni_manager.tsbuildinfo`. -/
def keepDist (n : String) (e : FsEntry) : Bool :=
  match e with
  | .dir _ => true
  | _ => n != "nni_manager.tsbuildinfo"

/-- Pure model of the net effect of the `copy_nni_node` copy loop on the
children of `nni_node`. -/
def distFold (acc : List (String × FsEntry)) :
    List (String × FsEntry) → List (String × FsEntry)
  | [] => acc
  | (n, e) :: rest => distFold (if keepDist n e then setC acc n e else acc) rest

/-- A workspace ready for the copy-strategy assembler: compiled manager
output `dist` with children `cs`, the source manifest `pj`, a compiled
web-UI build, a built jupyter-extension `dist`, and the output directory
`nni_node` currently holding `acc`. -/
def relRootAcc (cs : List (String × FsEntry)) (pj : JVal)
    (wbcs jdcs acc : List (String × FsEntry)) : FsEntry :=
  .dir [("ts", .dir
      [("nni_manager", .dir
        [("dist", .dir cs), ("package.json", .file (.jsonF pj))]),
       ("webui", .dir [("build", .dir wbcs)]),
       ("jupyter_extension", .dir [("dist", .dir jdcs)])]),
    ("nni_node", .dir acc)]

/-! ### Lemmas about the filesystem model -/

theorem getE_nil (e : FsEntry) : getE e [] = some e := by
  cases e <;> rfl

theorem setE_nil (r v : FsEntry) : setE r [] v = some v := by
  cases r <;> rfl

theorem removeE_nil (r : FsEntry) : removeE r [] = r := by
  cases r <;> rfl

theorem getC_setC_self (cs : List (String × FsEntry)) (n : String) (v : FsEntry) :
    getC (setC cs n v) n = some v := by
  induction cs with
  | nil => simp [getC, setC]
  | cons kv rest ih =>
    by_cases h : kv.1 = n
    · simp [getC, setC, h]
    · simp [getC, setC, h, ih]

theorem getC_setC_ne (cs : List (String × FsEntry)) (n m : String) (v : FsEntry)
    (h : m ≠ n) : getC (setC cs n v) m = getC cs m := by
  induction cs with
  | nil => simp [getC, setC, Ne.symm h]
  | cons kv rest ih =>
    by_cases h1 : kv.1 = n
    · rw [setC, if_pos h1, getC, getC]
      have h2 : ¬(n = m) := fun hh => h hh.symm
      rw [if_neg h2, if_neg (h1 ▸ h2)]
    · rw [setC, if_neg h1, getC, getC]
      by_cases h2 : kv.1 = m
      · rw [if_pos h2, if_pos h2]
      · rw [if_neg h2, if_neg h2, ih]

theorem delC_cons (kv : String × FsEntry) (rest : List (String × FsEntry))
    (n : String) :
    delC (kv :: rest) n = if kv.1 = n then delC rest n else kv :: delC rest n := by
  by_cases h : kv.1 = n
  · simp [delC, List.filter_cons, h]
  · simp [delC, List.filter_cons, h]

theorem getC_delC_self (cs : List (String × FsEntry)) (n : String) :
    getC (delC cs n) n = none := by
  induction cs with
  | nil => rfl
  | cons kv rest ih =>
    rw [delC_cons]
    by_cases h : kv.1 = n
    · rw [if_pos h]
      exact ih
    · rw [if_neg h, getC, if_neg h]
      exact ih

theorem getC_delC_ne (cs : List (String × FsEntry)) (n m : String) (h : m ≠ n) :
    getC (delC cs n) m = getC cs m := by
  induction cs with
  | nil => rfl
  | cons kv rest ih =>
    rw [delC_cons]
    by_cases h1 : kv.1 = n
    · have hkm : ¬(kv.1 = m) := by
        rw [h1]
        exact Ne.symm h
      rw [if_pos h1, getC, if_neg hkm]
      exact ih
    · rw [if_neg h1, getC, getC]
      by_cases h2 : kv.1 = m
      · rw [if_pos h2, if_pos h2]
      · rw [if_neg h2, if_neg h2]
        exact ih

theorem indepB_symm (p q : List String) : indepB p q = indepB q p := by
  induction p generalizing q with
  | nil => cases q <;> rfl
  | cons a p ih =>
    cases q with
    | nil => rfl
    | cons b q =>
      rw [indepB, indepB, ih]
      by_cases h : a = b
      · subst h
        rfl
      · have h1 : (a != b) = true := by simpa using h
        have h2 : (b != a) = true := by simpa using fun hh => h hh.symm
        rw [h1, h2]

theorem getE_setE_self (p : List String) (r r1 v : FsEntry)
    (h : setE r p v = some r1) : getE r1 p = some v := by
  induction p generalizing r r1 with
  | nil =>
    rw [setE_nil] at h
    cases h
    exact getE_nil v
  | cons n rest ih =>
    cases r with
    | file d => cases rest <;> simp [setE] at h
    | symlink t => cases rest <;> simp [setE] at h
    | dir cs =>
      cases rest with
      | nil =>
        simp only [setE] at h
        cases h
        simp only [getE, getC_setC_self, Option.some_bind, getE_nil]
      | cons n2 rest2 =>
        simp only [setE] at h
        rcases hg : getC cs n with _ | c
        · rw [hg, Option.none_bind] at h
          cases h
        · rw [hg, Option.some_bind] at h
          rcases hs : setE c (n2 :: rest2) v with _ | c1
          · rw [hs] at h
            cases h
          · rw [hs, Option.map_some'] at h
            cases h
            simp only [getE, getC_setC_self, Option.some_bind]
            exact ih _ _ hs

theorem getE_setE_indep (p q : List String) (r r1 v : FsEntry)
    (h : setE r p v = some r1) (hq : indepB p q = true) :
    getE r1 q = getE r q := by
  induction p generalizing q r r1 with
  | nil => simp [indepB] at hq
  | cons n rest ih =>
    cases q with
    | nil => simp [indepB] at hq
    | cons m qrest =>
      cases r with
      | file d => cases rest <;> simp [setE] at h
      | symlink t => cases rest <;> simp [setE] at h
      | dir cs =>
        by_cases hnm : n = m
        · subst hnm
          rw [indepB] at hq
          simp only [bne_self_eq_false, Bool.false_or] at hq
          cases rest with
          | nil => simp [indepB] at hq
          | cons n2 rest2 =>
            simp only [setE] at h
            rcases hg : getC cs n with _ | c
            · rw [hg, Option.none_bind] at h
              cases h
            · rw [hg, Option.some_bind] at h
              rcases hs : setE c (n2 :: rest2) v with _ | c1
              · rw [hs] at h
                cases h
              · rw [hs, Option.map_some'] at h
                cases h
                simp only [getE, getC_setC_self, Option.some_bind, hg]
                exact ih _ _ _ hs hq
        · have hr1 : ∃ x, r1 = FsEntry.dir (setC cs n x) := by
            cases rest with
            | nil =>
              simp only [setE] at h
              cases h
              exact ⟨v, rfl⟩
            | cons n2 rest2 =>
              simp only [setE] at h
              rcases hg : getC cs n with _ | c
              · rw [hg, Option.none_bind] at h
                cases h
              · rw [hg, Option.some_bind] at h
                rcases hs : setE c (n2 :: rest2) v with _ | c1
                · rw [hs] at h
                  cases h
                · rw [hs, Option.map_some'] at h
                  cases h
                  exact ⟨c1, rfl⟩
          obtain ⟨x, hx⟩ := hr1
          subst hx
          simp only [getE, getC_setC_ne _ _ _ _ (fun hh => hnm hh.symm)]

theorem getE_setMk_self (p : List String) (r r1 v : FsEntry)
    (h : setMk r p v = some r1) : getE r1 p = some v := by
  induction p generalizing r r1 with
  | nil =>
    have h0 : setMk r [] v = some v := by cases r <;> rfl
    rw [h0] at h
    cases h
    exact getE_nil v
  | cons n rest ih =>
    cases r with
    | file d => cases rest <;> simp [setMk] at h
    | symlink t => cases rest <;> simp [setMk] at h
    | dir cs =>
      cases rest with
      | nil =>
        simp only [setMk] at h
        cases h
        simp only [getE, getC_setC_self, Option.some_bind, getE_nil]
      | cons n2 rest2 =>
        simp only [setMk] at h
        rcases hs : setMk ((getC cs n).getD (.dir [])) (n2 :: rest2) v with _ | c1
        · rw [hs] at h
          cases h
        · rw [hs, Option.map_some'] at h
          cases h
          simp only [getE, getC_setC_self, Option.some_bind]
          exact ih _ _ hs

theorem getE_setMk_indep (p q : List String) (r r1 v : FsEntry)
    (h : setMk r p v = some r1) (hq : indepB p q = true) :
    getE r1 q = getE r q := by
  induction p generalizing q r r1 with
  | nil => simp [indepB] at hq
  | cons n rest ih =>
    cases q with
    | nil => simp [indepB] at hq
    | cons m qrest =>
      cases r with
      | file d => cases rest <;> simp [setMk] at h
      | symlink t => cases rest <;> simp [setMk] at h
      | dir cs =>
        by_cases hnm : n = m
        · subst hnm
          rw [indepB] at hq
          simp only [bne_self_eq_false, Bool.false_or] at hq
          cases rest with
          | nil => simp [indepB] at hq
          | cons n2 rest2 =>
            simp only [setMk] at h
            rcases hs : setMk ((getC cs n).getD (.dir [])) (n2 :: rest2) v with _ | c1
            · rw [hs] at h
              cases h
            · rw [hs, Option.map_some'] at h
              cases h
              simp only [getE, getC_setC_self, Option.some_bind]
              rcases hg : getC cs n with _ | c
              · rw [Option.none_bind]
                have hs1 : setMk (.dir []) (n2 :: rest2) v = some c1 := by
                  rw [hg] at hs
                  simpa using hs
                have hih := ih _ _ _ hs1 hq
                rw [hih]
                cases qrest with
                | nil => simp [indepB] at hq
                | cons m2 q2 =>
                  simp only [getE, getC, Option.none_bind]
              · have hs1 : setMk c (n2 :: rest2) v = some c1 := by
                  rw [hg] at hs
                  simpa using hs
                rw [Option.some_bind]
                exact ih _ _ _ hs1 hq
        · have hr1 : ∃ x, r1 = FsEntry.dir (setC cs n x) := by
            cases rest with
            | nil =>
              simp only [setMk] at h
              cases h
              exact ⟨v, rfl⟩
            | cons n2 rest2 =>
              simp only [setMk] at h
              rcases hs : setMk ((getC cs n).getD (.dir [])) (n2 :: rest2) v with _ | c1
              · rw [hs] at h
                cases h
              · rw [hs, Option.map_some'] at h
                cases h
                exact ⟨c1, rfl⟩
          obtain ⟨x, hx⟩ := hr1
          subst hx
          simp only [getE, getC_setC_ne _ _ _ _ (fun hh => hnm hh.symm)]

theorem getE_removeE_self (p : List String) (r : FsEntry) (h : p ≠ []) :
    getE (removeE r p) p = none := by
  induction p generalizing r with
  | nil => exact absurd rfl h
  | cons n rest ih =>
    cases r with
    | file d => cases rest <;> rfl
    | symlink t => cases rest <;> rfl
    | dir cs =>
      cases rest with
      | nil =>
        simp only [removeE, getE, getC_delC_self, Option.none_bind]
      | cons n2 rest2 =>
        simp only [removeE]
        rcases hg : getC cs n with _ | c
        · rw [Option.elim_none]
          simp only [getE]
          rw [hg, Option.none_bind]
        · rw [Option.elim_some]
          simp only [getE, getC_setC_self, Option.some_bind]
          exact ih _ (by simp)

theorem getE_removeE_indep (p q : List String) (r : FsEntry)
    (hq : indepB p q = true) : getE (removeE r p) q = getE r q := by
  induction p generalizing q r with
  | nil => simp [indepB] at hq
  | cons n rest ih =>
    cases q with
    | nil => simp [indepB] at hq
    | cons m qrest =>
      cases r with
      | file d => cases rest <;> rfl
      | symlink t => cases rest <;> rfl
      | dir cs =>
        by_cases hnm : n = m
        · subst hnm
          rw [indepB] at hq
          simp only [bne_self_eq_false, Bool.false_or] at hq
          cases rest with
          | nil => simp [indepB] at hq
          | cons n2 rest2 =>
            simp only [removeE]
            rcases hg : getC cs n with _ | c
            · rw [Option.elim_none]
            · rw [Option.elim_some]
              simp only [getE, getC_setC_self, Option.some_bind]
              rw [hg, Option.some_bind]
              exact ih _ _ hq
        · cases rest with
          | nil =>
            simp only [removeE, getE,
              getC_delC_ne _ _ _ (fun hh => hnm hh.symm)]
          | cons n2 rest2 =>
            simp only [removeE]
            rcases hg : getC cs n with _ | c
            · rw [Option.elim_none]
            · rw [Option.elim_some]
              simp only [getE, getC_setC_ne _ _ _ _ (fun hh => hnm hh.symm)]

theorem getE_append_one (r : FsEntry) (p : List String) (n : String) :
    getE r (p ++ [n]) = (getE r p).bind (fun e => childLookup e n) := by
  induction p generalizing r with
  | nil =>
    rw [List.nil_append, getE_nil, Option.some_bind]
    cases r with
    | file d => rfl
    | symlink t => rfl
    | dir cs =>
      simp only [getE, childLookup]
      rcases hg : getC cs n with _ | c
      · rfl
      · rfl
  | cons m rest ih =>
    cases r with
    | file d => rfl
    | symlink t => rfl
    | dir cs =>
      rw [List.cons_append]
      simp only [getE]
      rcases hg : getC cs m with _ | c
      · rfl
      · simp only [Option.some_bind]
        exact ih c

theorem setE_child (r : FsEntry) (p : List String) (n : String) (v : FsEntry)
    (cs : List (String × FsEntry)) (h : getE r p = some (.dir cs)) :
    ∃ r1, setE r (p ++ [n]) v = some r1 := by
  induction p generalizing r with
  | nil =>
    rw [getE_nil] at h
    cases h
    exact ⟨_, rfl⟩
  | cons m rest ih =>
    cases r with
    | file d => simp [getE] at h
    | symlink t => simp [getE] at h
    | dir cs0 =>
      simp only [getE] at h
      rcases hg : getC cs0 m with _ | c
      · rw [hg, Option.none_bind] at h
        cases h
      · rw [hg, Option.some_bind] at h
        obtain ⟨c1, hc1⟩ := ih c h
        refine ⟨.dir (setC cs0 m c1), ?_⟩
        cases rest with
        | nil =>
          rw [List.nil_append] at hc1
          simp only [List.cons_append, List.nil_append, setE, hg, Option.some_bind]
          rw [hc1, Option.map_some']
        | cons a b =>
          rw [List.cons_append] at hc1
          simp only [List.cons_append, setE, hg, Option.some_bind, List.append_eq]
          rw [hc1, Option.map_some']

/-! ### Lemmas about the monad -/

theorem run_bind {α β : Type} (m : PyM α) (f : α → PyM β) (s : St) :
    (m >>= f) s =
      (match m s with
       | (Except.ok a, s1) => f a s1
       | (Except.error e, s1) => (Except.error e, s1)) := rfl

theorem run_pure {α : Type} (a : α) (s : St) : (pure a : PyM α) s = (Except.ok a, s) := rfl

/-! ### Run lemmas for the clean operation -/

theorem rmtreeIgnore_run (p : List String) (hp : p ≠ []) (s : St)
    (h : getE s.root p = none ∨ ∃ cs, getE s.root p = some (.dir cs)) :
    ∃ r1, rmtreeIgnoreOp p s = (Except.ok (), { s with root := r1 }) ∧
      getE r1 p = none ∧
      ∀ q, indepB p q = true → getE r1 q = getE s.root q := by
  rcases h with h | ⟨cs, h⟩
  · refine ⟨s.root, ?_, h, fun q _ => rfl⟩
    simp only [rmtreeIgnoreOp, run_bind, getRootM, h]
    rfl
  · refine ⟨removeE s.root p, ?_, getE_removeE_self p s.root hp,
      fun q hq => getE_removeE_indep p q s.root hq⟩
    simp only [rmtreeIgnoreOp, run_bind, getRootM, h]
    rfl

theorem cleanOne_run (g : List String) (hg : g ≠ []) (s : St) :
    ∃ r1, cleanOne g s = (Except.ok (), { s with root := r1 }) ∧
      getE r1 g = none ∧
      ∀ q, indepB g q = true → getE r1 q = getE s.root q := by
  rcases h : getE s.root g with _ | e
  · refine ⟨s.root, ?_, h, fun q _ => rfl⟩
    simp only [cleanOne, run_bind, getRootM, h]
    rfl
  · cases e with
    | file d =>
      refine ⟨removeE s.root g, ?_, getE_removeE_self g s.root hg,
        fun q hq => getE_removeE_indep g q s.root hq⟩
      simp only [cleanOne, run_bind, getRootM, h, unlinkOp]
      rfl
    | dir cs =>
      refine ⟨removeE s.root g, ?_, getE_removeE_self g s.root hg,
        fun q hq => getE_removeE_indep g q s.root hq⟩
      simp only [cleanOne, run_bind, getRootM, h, rmtreeOp]
      rfl
    | symlink t =>
      refine ⟨removeE s.root g, ?_, getE_removeE_self g s.root hg,
        fun q hq => getE_removeE_indep g q s.root hq⟩
      simp only [cleanOne, run_bind, getRootM, h, unlinkOp]
      rfl

theorem cleanList_run (l : List (List String)) (hne : ∀ g ∈ l, g ≠ [])
    (hpw : l.Pairwise (fun a b => indepB a b = true)) (s : St) :
    ∃ r1, cleanList l s = (Except.ok (), { s with root := r1 }) ∧
      (∀ g ∈ l, getE r1 g = none) ∧
      ∀ q, (∀ g ∈ l, indepB g q = true) → getE r1 q = getE s.root q := by
  induction l generalizing s with
  | nil =>
    exact ⟨s.root, rfl, by simp, fun q _ => rfl⟩
  | cons g rest ih =>
    obtain ⟨r1, hrun1, habs1, hfr1⟩ := cleanOne_run g (hne g (by simp)) s
    obtain ⟨r2, hrun2, habs2, hfr2⟩ :=
      ih (fun g2 hg2 => hne g2 (by simp [hg2]))
        (List.Pairwise.sublist (List.sublist_cons_self g rest) hpw)
        { s with root := r1 }
    refine ⟨r2, ?_, ?_, ?_⟩
    · simp only [cleanList, run_bind, hrun1, hrun2]
    · intro g2 hg2
      rcases List.mem_cons.mp hg2 with hgg | hmem
      · subst hgg
        have hind : ∀ g3 ∈ rest, indepB g3 g2 = true := by
          intro g3 hg3
          have := (List.pairwise_cons.mp hpw).1 g3 hg3
          rw [indepB_symm]
          exact this
        rw [hfr2 g2 hind]
        exact habs1
      · exact habs2 g2 hmem
    · intro q hq
      rw [hfr2 q (fun g2 hg2 => hq g2 (by simp [hg2]))]
      exact hfr1 q (hq g (by simp))

/-! ### Claim C6 -/

/-- C6: after `clean(clean_all)` completes, the output directory `nni_node`
and every path in the fixed `generated_files` list are absent; with
`clean_all=False` the `toolchain` directory tree is left untouched, with
`clean_all=True` it is additionally absent.  (The hypotheses record that
`nni_node` and `toolchain`, when present, are directories — as the build
always creates them — since `shutil.rmtree(..., ignore_errors=True)` would
silently leave a regular file in place.) -/
theorem C6_clean (cleanAll : Bool) (s : St)
    (hn : getE s.root ["nni_node"] = none ∨
      ∃ cs, getE s.root ["nni_node"] = some (.dir cs))
    (ht : cleanAll = true →
      (getE s.root ["toolchain"] = none ∨
        ∃ cs, getE s.root ["toolchain"] = some (.dir cs))) :
    ∃ r3, clean cleanAll s = (Except.ok (), { s with root := r3 }) ∧
      getE r3 ["nni_node"] = none ∧
      (∀ g ∈ generated_files, getE r3 g = none) ∧
      (cleanAll = false → getE r3 ["toolchain"] = getE s.root ["toolchain"]) ∧
      (cleanAll = true → getE r3 ["toolchain"] = none) := by
  obtain ⟨r1, hrun1, habs1, hfr1⟩ :=
    rmtreeIgnore_run ["nni_node"] (by simp) s hn
  obtain ⟨r2, hrun2, habs2, hfr2⟩ :=
    cleanList_run generated_files (by decide) (by decide) { s with root := r1 }
  have hnn2 : getE r2 ["nni_node"] = none := by
    rw [hfr2 ["nni_node"] (by decide)]
    exact habs1
  have htl2 : getE r2 ["toolchain"] = getE s.root ["toolchain"] := by
    rw [hfr2 ["toolchain"] (by decide)]
    exact hfr1 ["toolchain"] (by decide)
  have hrun2' : cleanList generated_files { s with root := r1 } =
      (Except.ok (), { s with root := r2 }) := hrun2
  cases cleanAll with
  | false =>
    refine ⟨r2, ?_, hnn2, habs2, fun _ => htl2,
      fun hcontra => absurd hcontra (by decide)⟩
    simp only [clean, run_bind, hrun1, hrun2']
    rfl
  | true =>
    obtain ⟨r3, hrun3, habs3, hfr3⟩ :=
      rmtreeIgnore_run ["toolchain"] (by simp) { s with root := r2 }
        (by simpa [htl2] using ht rfl)
    refine ⟨r3, ?_, ?_, ?_, fun hcontra => absurd hcontra (by decide),
      fun _ => habs3⟩
    · have hrun3' : rmtreeIgnoreOp ["toolchain"] { s with root := r2 } =
          (Except.ok (), { s with root := r3 }) := hrun3
      simp only [clean, run_bind, hrun1, hrun2']
      rw [if_pos trivial]
      exact hrun3'
    · rw [hfr3 ["nni_node"] (by decide)]
      exact hnn2
    · intro g hgmem
      rw [hfr3 g ?_]
      · exact habs2 g hgmem
      · fin_cases hgmem <;> decide

/-- Witness for C6 at a concrete filesystem with `clean_all=True`. -/
theorem C6_clean_witness :
    ∃ r3,
      clean true
          { root := .dir [("nni_node", .dir [("node", .file (.binF 0))]),
              ("toolchain", .dir [("node", .dir [])]),
              ("ts", .dir [("nni_manager", .dir [("dist", .dir []),
                ("metrics.json", .file (.jsonF .jnull))])])],
            downloads := [], stdout := [] } =
          (Except.ok (), { root := r3, downloads := [], stdout := [] }) ∧
      getE r3 ["nni_node"] = none ∧
      (∀ g ∈ generated_files, getE r3 g = none) ∧
      ((true : Bool) = false → getE r3 ["toolchain"] =
        getE (FsEntry.dir [("nni_node", .dir [("node", .file (.binF 0))]),
          ("toolchain", .dir [("node", .dir [])]),
          ("ts", .dir [("nni_manager", .dir [("dist", .dir []),
            ("metrics.json", .file (.jsonF .jnull))])])]) ["toolchain"]) ∧
      ((true : Bool) = true → getE r3 ["toolchain"] = none) := by
  exact C6_clean true _ (Or.inr ⟨_, rfl⟩) (fun _ => Or.inr ⟨_, rfl⟩)

/-! ### Claim C2 -/

theorem getE_parent_of_append (r : FsEntry) (p : List String) (n : String)
    (e : FsEntry) (h : getE r (p ++ [n]) = some e) :
    ∃ cs, getE r p = some (.dir cs) ∧ getC cs n = some e := by
  rw [getE_append_one] at h
  rcases he : getE r p with _ | e0
  · rw [he, Option.none_bind] at h
    cases h
  · rw [he, Option.some_bind] at h
    cases e0 with
    | dir cs =>
      simp only [childLookup] at h
      exact ⟨cs, rfl, h⟩
    | file d => simp [childLookup] at h
    | symlink t => simp [childLookup] at h

/-- C2: when the detected JupyterLab major version is `"2"`, running
`restore_package()` after `update_package()` leaves
`ts/jupyter_extension/package.json` field-for-field identical to its
pre-patch content and the sidecar `.package_default.json` no longer exists;
for every other major version both operations leave the filesystem (indeed
the whole state) entirely unchanged.  The hypotheses require the pre-state
to hold a well-formed manifest (a JSON object with dict-valued `scripts`,
`dependencies` and `jupyterlab` fields, expressed by the four `jset2`
successes) and no stale sidecar, so that `update_package` completes. -/
theorem C2_patch_restore (env : Env) :
    (∀ (s : St) (j j1 j2 j3 j4 : JVal),
        jupyterLabMajor env = "2" →
        getE s.root ["ts", "jupyter_extension", "package.json"] =
          some (.file (.jsonF j)) →
        getE s.root ["ts", "jupyter_extension", ".package_default.json"] = none →
        jset2 j "scripts" "build" (.jstr "tsc && jupyter labextension link .") =
          .ok j1 →
        jset2 j1 "dependencies" "@jupyterlab/application" (.jstr "^2.3.0") = .ok j2 →
        jset2 j2 "dependencies" "@jupyterlab/launcher" (.jstr "^2.3.0") = .ok j3 →
        jset2 j3 "jupyterlab" "outputDir" (.jstr "build") = .ok j4 →
        ∃ s4, (do update_package env; restore_package env) s = (Except.ok (), s4) ∧
          getE s4.root ["ts", "jupyter_extension", "package.json"] =
            some (.file (.jsonF j)) ∧
          getE s4.root ["ts", "jupyter_extension", ".package_default.json"] = none) ∧
      (jupyterLabMajor env ≠ "2" →
        ∀ s : St, update_package env s = (Except.ok (), s) ∧
          restore_package env s = (Except.ok (), s) ∧
          (do update_package env; restore_package env) s = (Except.ok (), s)) := by
  constructor
  · intro s j j1 j2 j3 j4 hmaj hpkg hside h1 h2 h3 h4
    have hpkgA : getE s.root (["ts", "jupyter_extension"] ++ ["package.json"]) =
        some (.file (.jsonF j)) := hpkg
    obtain ⟨cs, hpar, -⟩ := getE_parent_of_append _ _ _ _ hpkgA
    obtain ⟨r1, hset1⟩ :=
      setE_child s.root ["ts", "jupyter_extension"] ".package_default.json"
        (.file (.jsonF j)) cs hpar
    have hset1' : setE s.root ["ts", "jupyter_extension", ".package_default.json"]
        (.file (.jsonF j)) = some r1 := hset1
    have hr1side : getE r1 ["ts", "jupyter_extension", ".package_default.json"] =
        some (.file (.jsonF j)) := getE_setE_self _ _ _ _ hset1'
    have hr1pkg : getE r1 ["ts", "jupyter_extension", "package.json"] =
        some (.file (.jsonF j)) := by
      rw [getE_setE_indep _ _ _ _ _ hset1' (by decide)]
      exact hpkg
    have hr1pkgA : getE r1 (["ts", "jupyter_extension"] ++ ["package.json"]) =
        some (.file (.jsonF j)) := hr1pkg
    obtain ⟨cs1, hpar1, -⟩ := getE_parent_of_append _ _ _ _ hr1pkgA
    obtain ⟨r2, hset2⟩ :=
      setE_child r1 ["ts", "jupyter_extension"] "package.json"
        (.file (.jsonF j4)) cs1 hpar1
    have hset2' : setE r1 ["ts", "jupyter_extension", "package.json"]
        (.file (.jsonF j4)) = some r2 := hset2
    have hr2pkg : getE r2 ["ts", "jupyter_extension", "package.json"] =
        some (.file (.jsonF j4)) := getE_setE_self _ _ _ _ hset2'
    have hr2side : getE r2 ["ts", "jupyter_extension", ".package_default.json"] =
        some (.file (.jsonF j)) := by
      rw [getE_setE_indep _ _ _ _ _ hset2' (by decide)]
      exact hr1side
    have hr2pkgA : getE r2 (["ts", "jupyter_extension"] ++ ["package.json"]) =
        some (.file (.jsonF j4)) := hr2pkg
    obtain ⟨cs2, hpar2, -⟩ := getE_parent_of_append _ _ _ _ hr2pkgA
    obtain ⟨r3, hset3⟩ :=
      setE_child r2 ["ts", "jupyter_extension"] "package.json"
        (.file (.jsonF j)) cs2 hpar2
    have hset3' : setE r2 ["ts", "jupyter_extension", "package.json"]
        (.file (.jsonF j)) = some r3 := hset3
    have hr3pkg : getE r3 ["ts", "jupyter_extension", "package.json"] =
        some (.file (.jsonF j)) := getE_setE_self _ _ _ _ hset3'
    have hr3side : getE r3 ["ts", "jupyter_extension", ".package_default.json"] =
        some (.file (.jsonF j)) := by
      rw [getE_setE_indep _ _ _ _ _ hset3' (by decide)]
      exact hr2side
    have hr4side : getE
        (removeE r3 ["ts", "jupyter_extension", ".package_default.json"])
        ["ts", "jupyter_extension", ".package_default.json"] = none :=
      getE_removeE_self _ _ (by simp)
    have hr4pkg : getE
        (removeE r3 ["ts", "jupyter_extension", ".package_default.json"])
        ["ts", "jupyter_extension", "package.json"] = some (.file (.jsonF j)) := by
      rw [getE_removeE_indep _ _ _ (by decide)]
      exact hr3pkg
    refine ⟨{ s with
        root := removeE r3 ["ts", "jupyter_extension", ".package_default.json"],
        stdout := s.stdout ++ ["updated package.json"] ++ ["stored package.json"] },
      ?_, hr4pkg, hr4side⟩
    simp only [run_bind, update_package, restore_package, if_pos hmaj, jsonLoad,
      jsonDump, unlinkOp, printM, liftExc, getRootM, setRootM, run_pure,
      hpkg, hside, h1, h2, h3, h4, hset1', hset2', hset3',
      hr1pkg, hr1side, hr2pkg, hr2side, hr3pkg, hr3side, setRootOr]
  · intro hmaj s
    refine ⟨?_, ?_, ?_⟩
    · simp only [update_package, if_neg hmaj]
      rfl
    · simp only [restore_package, if_neg hmaj]
      rfl
    · simp only [run_bind, update_package, restore_package, if_neg hmaj]
      rfl

/-- Witness for C2 at a concrete environment and filesystem. -/
theorem C2_patch_restore_witness :
    ∃ s4,
      (do
          update_package
            { platform := "linux", jupyterLabVersion := "2.1.0",
              globalToolchain := true, execPrefix := [], nodeOk := true,
              yarnDlOk := true, nodeArchive := [], yarnArchive := [],
              yarnOk := fun _ _ => true, yarnFx := fun _ _ r => r }
          restore_package
            { platform := "linux", jupyterLabVersion := "2.1.0",
              globalToolchain := true, execPrefix := [], nodeOk := true,
              yarnDlOk := true, nodeArchive := [], yarnArchive := [],
              yarnOk := fun _ _ => true, yarnFx := fun _ _ r => r })
          { root := .dir [("ts", .dir [("jupyter_extension", .dir [("package.json",
              .file (.jsonF (.jobj [("scripts", .jobj []), ("dependencies", .jobj []),
                ("jupyterlab", .jobj [])])))])])],
            downloads := [], stdout := [] } =
        (Except.ok (), s4) ∧
      getE s4.root ["ts", "jupyter_extension", "package.json"] =
        some (.file (.jsonF (.jobj [("scripts", .jobj []), ("dependencies", .jobj []),
          ("jupyterlab", .jobj [])]))) ∧
      getE s4.root ["ts", "jupyter_extension", ".package_default.json"] = none := by
  exact (C2_patch_restore _).1 _ _ _ _ _ _ rfl rfl rfl rfl rfl rfl rfl

/-! ### Claim C5 -/

theorem getE_append (r : FsEntry) (p q : List String) :
    getE r (p ++ q) = (getE r p).bind (fun e => getE e q) := by
  induction p generalizing r with
  | nil =>
    rw [List.nil_append, getE_nil, Option.some_bind]
  | cons m rest ih =>
    cases r with
    | file d => rfl
    | symlink t => rfl
    | dir cs =>
      rw [List.cons_append]
      simp only [getE]
      rcases hg : getC cs m with _ | c
      · rfl
      · simp only [Option.some_bind]
        exact ih c

theorem getE_cons_inv (r : FsEntry) (n : String) (rest : List String) (e : FsEntry)
    (h : getE r (n :: rest) = some e) : ∃ cs, r = .dir cs := by
  cases r with
  | file d => simp [getE] at h
  | symlink t => simp [getE] at h
  | dir cs => exact ⟨cs, rfl⟩

theorem setE_child_get (r : FsEntry) (p : List String) (n : String) (v : FsEntry)
    (cs : List (String × FsEntry)) (h : getE r p = some (.dir cs)) :
    ∃ r1, setE r (p ++ [n]) v = some r1 ∧
      getE r1 p = some (.dir (setC cs n v)) := by
  induction p generalizing r with
  | nil =>
    rw [getE_nil] at h
    cases h
    refine ⟨.dir (setC cs n v), ?_, ?_⟩
    · rw [List.nil_append]
      rfl
    · rw [getE_nil]
  | cons m rest ih =>
    cases r with
    | file d => simp [getE] at h
    | symlink t => simp [getE] at h
    | dir cs0 =>
      simp only [getE] at h
      rcases hg : getC cs0 m with _ | c
      · rw [hg, Option.none_bind] at h
        cases h
      · rw [hg, Option.some_bind] at h
        obtain ⟨c1, hc1, hc1get⟩ := ih c h
        refine ⟨.dir (setC cs0 m c1), ?_, ?_⟩
        · cases rest with
          | nil =>
            rw [List.nil_append] at hc1
            simp only [List.cons_append, List.nil_append, setE, hg,
              Option.some_bind]
            rw [hc1, Option.map_some']
          | cons a b =>
            rw [List.cons_append] at hc1
            simp only [List.cons_append, setE, hg, Option.some_bind,
              List.append_eq]
            rw [hc1, Option.map_some']
        · simp only [getE, getC_setC_self, Option.some_bind]
          exact hc1get

theorem removeE_child (r : FsEntry) (p : List String) (n : String)
    (cs : List (String × FsEntry)) (h : getE r p = some (.dir cs)) :
    getE (removeE r (p ++ [n])) p = some (.dir (delC cs n)) := by
  induction p generalizing r with
  | nil =>
    rw [getE_nil] at h
    cases h
    rw [List.nil_append, removeE, getE_nil]
  | cons m rest ih =>
    cases r with
    | file d => simp [getE] at h
    | symlink t => simp [getE] at h
    | dir cs0 =>
      simp only [getE] at h
      rcases hg : getC cs0 m with _ | c
      · rw [hg, Option.none_bind] at h
        cases h
      · rw [hg, Option.some_bind] at h
        cases rest with
        | nil =>
          rw [getE_nil] at h
          cases h
          simp only [List.cons_append, List.nil_append, removeE, hg,
            Option.elim_some, getE, getC_setC_self, Option.some_bind, getE_nil]
        | cons a b =>
          simp only [List.cons_append, removeE, hg, Option.elim_some, getE,
            getC_setC_self, Option.some_bind]
          have hih := ih c h
          rw [List.cons_append] at hih
          exact hih

theorem getC_extractFold (l : List (String × FsEntry))
    (cs : List (String × FsEntry)) (n : String) :
    getC (l.foldl (fun acc ne => setC acc ne.1 ne.2) cs) n =
      (archLookup l n).or (getC cs n) := by
  induction l generalizing cs with
  | nil => rfl
  | cons kv rest ih =>
    rw [List.foldl_cons, ih, archLookup]
    rcases ha : archLookup rest n with _ | v
    · rw [Option.none_or, Option.none_or]
      by_cases hk : kv.1 = n
      · subst hk
        rw [getC_setC_self, if_pos rfl, Option.or_some]
      · rw [getC_setC_ne _ _ _ _ (fun hh => hk hh.symm), if_neg hk,
          Option.none_or]
    · simp [Option.or_some]

/-- C5: `download_toolchain()` is idempotent.  First conjunct: if the runtime
executable already exists at `toolchain/node/<in-archive path>`, the call
returns immediately with no side effect at all (the state is returned
unchanged, so no network request and no filesystem write).  Second conjunct:
starting from a state with a `toolchain` directory holding no previously
extracted `node`/`yarn` trees, with successful downloads whose archives
contain the expected version-qualified directories (and the node executable
inside), the first call performs exactly the two archive downloads and
establishes the executable at the expected path, and the second call returns
that state unchanged — two invocations in a row download only once. -/
theorem C5_download_idempotent (env : Env) (p : Profile) :
    (∀ s : St,
        isFileAt s.root
          (["toolchain", "node"] ++ p.node_executable_in_tarball_segs) = true →
        download_toolchain env p s = (Except.ok (), s)) ∧
      (∀ (s : St) (tc0 : List (String × FsEntry)) (d dy : FsEntry) (fd : FileData),
        getE s.root ["toolchain"] = some (.dir tc0) →
        getC tc0 "node" = none →
        getC tc0 "yarn" = none →
        env.nodeOk = true →
        env.yarnDlOk = true →
        archLookup env.nodeArchive p.node_spec = some d →
        archLookup env.nodeArchive "node" = none →
        archLookup env.nodeArchive "yarn" = none →
        archLookup env.yarnArchive "node" = none →
        archLookup env.yarnArchive "yarn" = none →
        archLookup env.yarnArchive ("yarn-" ++ yarn_version) = some dy →
        getE d p.node_executable_in_tarball_segs = some (.file fd) →
        p.node_spec ≠ "node" →
        p.node_spec ≠ "yarn" →
        ∃ s1, download_toolchain env p s = (Except.ok (), s1) ∧
          s1.downloads = s.downloads ++ [p.node_download_url] ++
            [p.yarn_download_url] ∧
          isFileAt s1.root
            (["toolchain", "node"] ++ p.node_executable_in_tarball_segs) = true ∧
          download_toolchain env p s1 = (Except.ok (), s1)) := by
  have part1 : ∀ s : St,
      isFileAt s.root
        (["toolchain", "node"] ++ p.node_executable_in_tarball_segs) = true →
      download_toolchain env p s = (Except.ok (), s) := by
    intro s h
    simp only [download_toolchain, run_bind, getRootM]
    rw [if_pos h]
    rfl
  refine ⟨part1, ?_⟩
  intro s tc0 d dy fd htc hstN hstY hnOk hyOk hAnSpec hAnNode hAnYarn hAyNode
    hAyYarn hAyYv hdexe hspN hspY
  have hno : isFileAt s.root
      (["toolchain", "node"] ++ p.node_executable_in_tarball_segs) = false := by
    have h2 : getE s.root (["toolchain"] ++ ("node" ::
        p.node_executable_in_tarball_segs)) = none := by
      rw [getE_append, htc, Option.some_bind]
      simp only [getE, hstN, Option.none_bind]
    have h1 : getE s.root ("toolchain" :: "node" ::
        p.node_executable_in_tarball_segs) = none := h2
    simp [isFileAt, h1]
  obtain ⟨rcs, hroot⟩ := getE_cons_inv _ _ _ _ htc
  have hrootE : getE s.root [] = some (.dir rcs) := by
    rw [hroot, getE_nil]
  have htc' : getC rcs "toolchain" = some (.dir tc0) := by
    rw [hroot] at htc
    simpa [getE] using htc
  obtain ⟨r1, hset1, hr1tc0⟩ :=
    setE_child_get s.root [] "toolchain"
      (.dir (env.nodeArchive.foldl (fun acc ne => setC acc ne.1 ne.2) tc0))
      rcs hrootE
  have hset1' : setE s.root ["toolchain"]
      (.dir (env.nodeArchive.foldl (fun acc ne => setC acc ne.1 ne.2) tc0)) =
      some r1 := hset1
  have hr1tc : getE r1 ["toolchain"] =
      some (.dir (env.nodeArchive.foldl (fun acc ne => setC acc ne.1 ne.2) tc0)) :=
    getE_setE_self _ _ _ _ hset1'
  have hr1node : getE r1 ["toolchain", "node"] = none := by
    have h1 : getE r1 (["toolchain"] ++ ["node"]) = none := by
      rw [getE_append, hr1tc, Option.some_bind]
      simp only [getE, getC_extractFold, hAnNode, Option.none_or, hstN,
        Option.none_bind]
    exact h1
  have hr1spec : getE r1 ["toolchain", p.node_spec] = some d := by
    have h1 : getE r1 (["toolchain"] ++ [p.node_spec]) = some d := by
      rw [getE_append, hr1tc, Option.some_bind]
      simp only [getE, getC_extractFold, hAnSpec, Option.or_some,
        Option.some_bind, getE_nil]
    exact h1
  have hr1rm : getE (removeE r1 (["toolchain"] ++ [p.node_spec])) ["toolchain"] =
      some (.dir (delC (env.nodeArchive.foldl (fun acc ne => setC acc ne.1 ne.2)
        tc0) p.node_spec)) :=
    removeE_child r1 ["toolchain"] p.node_spec _ hr1tc
  obtain ⟨r2, hset2, hr2tc0⟩ :=
    setE_child_get (removeE r1 (["toolchain"] ++ [p.node_spec])) ["toolchain"]
      "node" d _ hr1rm
  have hset2' : setE (removeE r1 ["toolchain", p.node_spec]) ["toolchain", "node"]
      d = some r2 := hset2
  have hr2tc : getE r2 ["toolchain"] =
      some (.dir (setC (delC
        (env.nodeArchive.foldl (fun acc ne => setC acc ne.1 ne.2) tc0)
        p.node_spec) "node" d)) := hr2tc0
  obtain ⟨rcs2, hroot2⟩ := getE_cons_inv _ _ _ _ hr2tc
  have hroot2E : getE r2 [] = some (.dir rcs2) := by
    rw [hroot2, getE_nil]
  obtain ⟨r3, hset3, hr3tc0⟩ :=
    setE_child_get r2 [] "toolchain"
      (.dir (env.yarnArchive.foldl (fun acc ne => setC acc ne.1 ne.2)
        (setC (delC (env.nodeArchive.foldl (fun acc ne => setC acc ne.1 ne.2) tc0)
          p.node_spec) "node" d)))
      rcs2 hroot2E
  have hset3' : setE r2 ["toolchain"]
      (.dir (env.yarnArchive.foldl (fun acc ne => setC acc ne.1 ne.2)
        (setC (delC (env.nodeArchive.foldl (fun acc ne => setC acc ne.1 ne.2) tc0)
          p.node_spec) "node" d))) = some r3 := hset3
  have hr3tc : getE r3 ["toolchain"] =
      some (.dir (env.yarnArchive.foldl (fun acc ne => setC acc ne.1 ne.2)
        (setC (delC (env.nodeArchive.foldl (fun acc ne => setC acc ne.1 ne.2) tc0)
          p.node_spec) "node" d))) :=
    getE_setE_self _ _ _ _ hset3'
  have hr3yarn : getE r3 ["toolchain", "yarn"] = none := by
    have h1 : getE r3 (["toolchain"] ++ ["yarn"]) = none := by
      rw [getE_append, hr3tc, Option.some_bind]
      simp only [getE]
      rw [getC_extractFold, hAyYarn, Option.none_or,
        getC_setC_ne _ _ _ _ (by decide : ("yarn" : String) ≠ "node"),
        getC_delC_ne _ _ _ (Ne.symm hspY),
        getC_extractFold, hAnYarn, Option.none_or, hstY, Option.none_bind]
    exact h1
  have hr3yv : getE r3 ["toolchain", "yarn-" ++ yarn_version] = some dy := by
    have h1 : getE r3 (["toolchain"] ++ ["yarn-" ++ yarn_version]) = some dy := by
      rw [getE_append, hr3tc, Option.some_bind]
      simp only [getE]
      rw [getC_extractFold, hAyYv, Option.or_some, Option.some_bind]
    exact h1
  have hr3rm : getE (removeE r3 (["toolchain"] ++ ["yarn-" ++ yarn_version]))
      ["toolchain"] =
      some (.dir (delC (env.yarnArchive.foldl (fun acc ne => setC acc ne.1 ne.2)
        (setC (delC (env.nodeArchive.foldl (fun acc ne => setC acc ne.1 ne.2) tc0)
          p.node_spec) "node" d)) ("yarn-" ++ yarn_version))) :=
    removeE_child r3 ["toolchain"] ("yarn-" ++ yarn_version) _ hr3tc
  obtain ⟨r4, hset4, hr4tc0⟩ :=
    setE_child_get (removeE r3 (["toolchain"] ++ ["yarn-" ++ yarn_version]))
      ["toolchain"] "yarn" dy _ hr3rm
  have hset4' : setE (removeE r3 ["toolchain", "yarn-" ++ yarn_version])
      ["toolchain", "yarn"] dy = some r4 := hset4
  have hyvnode : ("node" : String) ≠ "yarn-" ++ yarn_version := by decide
  have hr4node : getE r4 ["toolchain", "node"] = some d := by
    have h1 : getE r4 (["toolchain"] ++ ["node"]) = some d := by
      rw [getE_append, hr4tc0, Option.some_bind]
      simp only [getE]
      rw [getC_setC_ne _ _ _ _ (by decide : ("node" : String) ≠ "yarn"),
        getC_delC_ne _ _ _ hyvnode,
        getC_extractFold, hAyNode, Option.none_or, getC_setC_self,
        Option.some_bind]
    exact h1
  have hfile1 : isFileAt r4
      (["toolchain", "node"] ++ p.node_executable_in_tarball_segs) = true := by
    have h0 : getE r4 (["toolchain", "node"] ++
        p.node_executable_in_tarball_segs) = some (.file fd) := by
      rw [getE_append, hr4node, Option.some_bind, hdexe]
    have h1 : getE r4 ("toolchain" :: "node" ::
        p.node_executable_in_tarball_segs) = some (.file fd) := h0
    simp [isFileAt, h1]
  refine ⟨{ s with
      root := r4,
      downloads := (s.downloads ++ [p.node_download_url] ++ [p.yarn_download_url]),
      stdout := (s.stdout ++ ["Downloading node.js from " ++ p.node_download_url]
        ++ ["Extracting node.js"]
        ++ ["Downloading yarn from " ++ p.yarn_download_url]
        ++ ["Extracting yarn"]) },
    ?_, rfl, hfile1, part1 _ hfile1⟩
  simp only [download_toolchain, run_bind, run_pure, getRootM, setRootM, printM,
    httpGetOp, extractOp, rmtreeIgnoreOp, renameOp, mkdirOp, liftExc,
    hno, Bool.false_eq_true, if_false, htc, hnOk, hyOk, if_true,
    hset1', hr1tc, hr1node, hr1spec, hset2', hr2tc, hset3', hr3tc, hr3yarn,
    hr3yv, hset4', setRootOr]

/-! ### Basic lemmas about the pure helpers -/

theorem pySplit_length (sep : Char) (l : List Char) :
    (pySplit sep l).length = l.count sep + 1 := by
  induction l with
  | nil => simp [pySplit]
  | cons c rest ih =>
    by_cases h : c = sep
    · subst h
      simp [pySplit, ih, List.count_cons]
    · rcases hps : pySplit sep rest with _ | ⟨part, parts⟩
      · rw [hps] at ih
        simp at ih
      · rw [hps] at ih
        simp only [pySplit, if_neg h, hps, List.length_cons] at *
        simp [List.count_cons, h, ih]

theorem count_append_pad (v : List Char) :
    (v ++ ['.', '0']).count '.' = v.count '.' + 1 := by
  simp [List.count_append]

/-- The padding loop, characterised: the result is the input with `.0`
appended `3 - parts` times, and it always has at least three parts. -/
theorem padVersionCh_spec (v : List Char) :
    padVersionCh v = v ++ (List.replicate (3 - (pySplit '.' v).length) ['.', '0']).flatten ∧
      3 ≤ (pySplit '.' (padVersionCh v)).length := by
  have h0 := pySplit_length '.' v
  have h1 := pySplit_length '.' (v ++ ['.', '0'])
  have h2 := pySplit_length '.' ((v ++ ['.', '0']) ++ ['.', '0'])
  rw [count_append_pad] at h1 h2
  rw [count_append_pad] at h2
  rcases Nat.lt_or_ge (v.count '.') 1 with hk | hk1
  · have hk0 : v.count '.' = 0 := by omega
    rw [hk0] at h0 h1 h2
    constructor
    · show padLoop 3 v = _
      rw [padLoop, if_pos (by omega), padLoop, if_pos (by omega), padLoop,
        if_neg (by omega)]
      simp [h0, List.append_assoc]
    · show 3 ≤ (pySplit '.' (padLoop 3 v)).length
      rw [padLoop, if_pos (by omega), padLoop, if_pos (by omega), padLoop,
        if_neg (by omega)]
      omega
  · rcases Nat.lt_or_ge (v.count '.') 2 with hk | hk2
    · have hk1' : v.count '.' = 1 := by omega
      rw [hk1'] at h0 h1
      constructor
      · show padLoop 3 v = _
        rw [padLoop, if_pos (by omega), padLoop, if_neg (by omega)]
        simp [h0]
      · show 3 ≤ (pySplit '.' (padLoop 3 v)).length
        rw [padLoop, if_pos (by omega), padLoop, if_neg (by omega)]
        omega
    · constructor
      · show padLoop 3 v = _
        rw [padLoop, if_neg (by omega)]
        have : 3 - (pySplit '.' v).length = 0 := by omega
        simp [this]
      · show 3 ≤ (pySplit '.' (padLoop 3 v)).length
        rw [padLoop, if_neg (by omega)]
        omega

/-! ### Claim C1 -/

/-- C1: for every release version string supplied to the copy-strategy
assembler (`copy_nni_node`, which writes `releaseManifest pj version` into
`nni_node/package.json`), the version stored in the output manifest is the
input padded with trailing `.0` components until it has at least three
dot-separated parts; in particular `"1"`, `"1.2"`, `"1.2.3"`, `"1.2.3.4"`
yield `"1.0.0"`, `"1.2.0"`, `"1.2.3"`, `"1.2.3.4"`. -/
theorem C1_version_padding :
    (∀ (fields : List (String × JVal)) (v : String), v ≠ "" →
        releaseManifest (.jobj fields) v =
          .ok (.jobj (objSet fields "version" (.jstr (padVersion v))))) ∧
      (∀ v : List Char,
        padVersionCh v =
            v ++ (List.replicate (3 - (pySplit '.' v).length) ['.', '0']).flatten ∧
          3 ≤ (pySplit '.' (padVersionCh v)).length) ∧
      padVersion "1" = "1.0.0" ∧ padVersion "1.2" = "1.2.0" ∧
      padVersion "1.2.3" = "1.2.3" ∧ padVersion "1.2.3.4" = "1.2.3.4" := by
  refine ⟨?_, padVersionCh_spec, by decide, by decide, by decide, by decide⟩
  intro fields v hv
  simp [releaseManifest, hv]

/-- Witness for C1 at the concrete input `"1.2"`. -/
theorem C1_version_padding_witness :
    releaseManifest (.jobj []) "1.2" = .ok (.jobj [("version", .jstr "1.2.0")]) := by
  have h := C1_version_padding.1 [] "1.2" (by decide)
  rw [h]
  rfl

/-! ### Claim C7 -/

/-- C7: for each supported platform identifier the module-level platform
branch binds a non-empty runtime executable name, a download URL containing
the pinned node version string, and the extractor matching that platform's
archive format (tar.xz for Linux/macOS, ZIP for Windows); for every other
identifier it raises `RuntimeError('Unsupported system')`, binding no
profile. -/
theorem C7_platform_profile :
    (∀ platform : String,
        platform = "linux" ∨ platform = "darwin" ∨ platform = "win32" →
        ∃ p : Profile, resolvePlatform platform = .ok p ∧
          p.node_executable ≠ "" ∧
          (∃ a b, p.node_download_url = a ++ node_version ++ b) ∧
          ((platform = "win32" → p.node_extractor = .zip) ∧
            (platform ≠ "win32" → p.node_extractor = .tarXz))) ∧
      ∀ platform : String,
        ¬(platform = "linux" ∨ platform = "darwin" ∨ platform = "win32") →
        resolvePlatform platform = .error (.runtimeError "Unsupported system") := by
  constructor
  · intro platform h
    rcases h with h | h | h <;> subst h
    · exact ⟨profLinux, by rfl, by decide,
        ⟨"https://nodejs.org/dist/", "/node-v16.3.0-linux-x64.tar.xz", by rfl⟩,
        by decide, fun _ => by rfl⟩
    · refine ⟨_, rfl, ?_, ?_, ?_, ?_⟩
      · decide
      · exact ⟨"https://nodejs.org/dist/", "/node-v16.3.0-darwin-x64.tar.xz", by rfl⟩
      · intro h; exact absurd h (by decide)
      · intro _; rfl
    · refine ⟨_, rfl, ?_, ?_, ?_, ?_⟩
      · decide
      · exact ⟨"https://nodejs.org/dist/", "/node-v16.3.0-win-x64.zip", by rfl⟩
      · intro _; rfl
      · intro h; exact absurd rfl h

  · intro platform h
    push_neg at h
    rw [resolvePlatform, if_neg (by tauto), if_neg h.2.2]

/-- Witness for C7 at the concrete platforms `"linux"` and `"plan9"`. -/
theorem C7_platform_profile_witness :
    (∃ p : Profile, resolvePlatform "linux" = .ok p ∧
        p.node_executable ≠ "" ∧
        (∃ a b, p.node_download_url = a ++ node_version ++ b) ∧
        (("linux" : String) = "win32" → p.node_extractor = .zip) ∧
        (("linux" : String) ≠ "win32" → p.node_extractor = .tarXz)) ∧
      resolvePlatform "plan9" = .error (.runtimeError "Unsupported system") := by
  constructor
  · obtain ⟨p, h1, h2, h3, h4, h5⟩ := C7_platform_profile.1 "linux" (Or.inl rfl)
    exact ⟨p, h1, h2, h3, h4, h5⟩
  · exact C7_platform_profile.2 "plan9" (by decide)

/-! ### Claim C9 -/

/-- C9 counterexample: with JupyterLab major version `"3"`, a truthy release
version `"1.0"` and no `ts/jupyter_extension/dist` directory, the copy
strategy takes the `dist/` branch (its condition is
`version or Path('ts/jupyter_extension/dist').exists()`) while the symlink
strategy skips, so the two strategies do not take the same branch. -/
theorem C9_counterexample :
    copyJupyterBranch "3" "1.0" false ≠ symlinkJupyterBranch "3" false := by
  decide

/-- C9 amended: the copy strategy takes the same notebook-integration branch
as the symlink strategy whenever the release version is falsy or the
`dist/` output exists (and always in the legacy major-version-"2" case);
in the remaining case — truthy release version, major version other than
`"2"`, no `dist/` output — the copy strategy takes the `dist/` branch while
the symlink strategy skips. -/
theorem C9_branch_agreement (major version : String) (distExists : Bool) :
    ((version = "" ∨ distExists = true) →
        copyJupyterBranch major version distExists =
          symlinkJupyterBranch major distExists) ∧
      (major = "2" →
        copyJupyterBranch major version distExists =
          symlinkJupyterBranch major distExists) ∧
      (major ≠ "2" → version ≠ "" → distExists = false →
        copyJupyterBranch major version distExists = .distDir ∧
          symlinkJupyterBranch major distExists = .skip) := by
  refine ⟨?_, ?_, ?_⟩
  · rintro (h | h)
    · subst h
      simp [copyJupyterBranch, symlinkJupyterBranch]
    · subst h
      by_cases hm : major = "2" <;>
        simp [copyJupyterBranch, symlinkJupyterBranch, hm]
  · intro hm
    subst hm
    simp [copyJupyterBranch, symlinkJupyterBranch]
  · intro hm hv hd
    subst hd
    have hv' : (version != "") = true := by
      simpa using hv
    simp [copyJupyterBranch, symlinkJupyterBranch, hm, hv']

/-- Witness for C9's amended statement at concrete inputs. -/
theorem C9_branch_agreement_witness :
    copyJupyterBranch "3" "" false = symlinkJupyterBranch "3" false ∧
      copyJupyterBranch "2" "1.0" true = symlinkJupyterBranch "2" true ∧
      (copyJupyterBranch "3" "1.0" false = .distDir ∧
        symlinkJupyterBranch "3" false = .skip) := by
  refine ⟨(C9_branch_agreement "3" "" false).1 (Or.inl rfl),
    (C9_branch_agreement "2" "1.0" true).2.1 rfl,
    (C9_branch_agreement "3" "1.0" false).2.2 (by decide) (by decide) rfl⟩

/-- Witness for C5 at a concrete environment: both the short-circuit
conjunct (after the run) and the download-once conjunct. -/
theorem C5_download_idempotent_witness :
    ∃ s1, download_toolchain envC5 profLinux stC5 = (Except.ok (), s1) ∧
      s1.downloads = stC5.downloads ++ [profLinux.node_download_url] ++
        [profLinux.yarn_download_url] ∧
      isFileAt s1.root
        (["toolchain", "node"] ++ profLinux.node_executable_in_tarball_segs) =
        true ∧
      download_toolchain envC5 profLinux s1 = (Except.ok (), s1) := by
  exact (C5_download_idempotent envC5 profLinux).2 stC5 []
    (.dir [("bin", .dir [("node", .file (.binF 0))])])
    (.dir [("bin", .dir [("yarn", .file (.binF 1))])]) (.binF 0)
    rfl rfl rfl rfl rfl rfl rfl rfl rfl rfl rfl rfl (by decide) (by decide)

/-! ### Claim C3 -/

/-- C3 (code bug): in `build(release)` the manifest patch and restore do
not bracket compilation as a matched pair.  At the concrete input below —
JupyterLab major version `"2"`, a development build, and a package manager
whose first invocation fails — `update_package()` has patched the manifest,
`compile_ts` raises, the exception propagates out of `build`, and
`restore_package()` never runs: at exit the sidecar still exists and the
manifest still holds the patched document, which differs from the original.
This contradicts the claim that restoration runs on every exit path. -/
theorem C3_no_restore_on_compile_failure :
    (build envC3 profLinux "" stC3).1 =
        Except.error (.calledProcessError ["ts", "nni_manager"] []) ∧
      getE (build envC3 profLinux "" stC3).2.root
          ["ts", "jupyter_extension", ".package_default.json"] =
        some (.file (.jsonF pjC3)) ∧
      getE (build envC3 profLinux "" stC3).2.root
          ["ts", "jupyter_extension", "package.json"] =
        some (.file (.jsonF pjC3patched)) ∧
      pjC3patched ≠ pjC3 := by
  refine ⟨rfl, rfl, rfl, ?_⟩
  intro h
  simp [pjC3patched, pjC3] at h

/-! ### Claim C10 -/

/-- C10: with `GLOBAL_TOOLCHAIN` set and `release` empty, `build` skips
`download_toolchain()` entirely (first conjunct: the build equals the same
program with the download step elided), yet `prepare_nni_node()` still
copies the runtime from the fixed local path
`toolchain/node/<in-archive path>`; hence if that executable is not on disk,
the build fails (second conjunct) — such a build succeeds only when a
previously downloaded local toolchain already exists. -/
theorem C10_global_toolchain_precondition (env : Env) (p : Profile)
    (hglob : env.globalToolchain = true) :
    (build env p "" = (do
        prepare_nni_node p
        update_package env
        compile_ts env ""
        if (("" : String) != "") || env.platform == "win32" then
          copy_nni_node env ""
        else
          symlink_nni_node env
        restore_package env)) ∧
      ∀ s : St,
        isFileAt s.root
          (["toolchain", "node"] ++ p.node_executable_in_tarball_segs) = false →
        ∃ e s1, build env p "" s = (Except.error e, s1) := by
  have heq : build env p "" = (do
      prepare_nni_node p
      update_package env
      compile_ts env ""
      if (("" : String) != "") || env.platform == "win32" then
        copy_nni_node env ""
      else
        symlink_nni_node env
      restore_package env) := by
    funext s
    simp only [build, hglob, Bool.not_true, Bool.or_false]
    rfl
  refine ⟨heq, ?_⟩
  intro s hno
  rw [heq]
  have hsrc : ∀ r2 : FsEntry,
      getE r2 (["toolchain", "node"] ++ p.node_executable_in_tarball_segs) =
        getE s.root (["toolchain", "node"] ++ p.node_executable_in_tarball_segs) →
      ∃ e, copyOp (["toolchain", "node"] ++ p.node_executable_in_tarball_segs)
          ["nni_node", p.node_executable] { s with root := r2 } =
        (Except.error e, { s with root := r2 }) := by
    intro r2 h2
    rcases hg : getE s.root
        (["toolchain", "node"] ++ p.node_executable_in_tarball_segs) with _ | e0
    · exact ⟨.fileNotFound _, by
        simp only [copyOp, run_bind, getRootM, h2, hg, setRootOr]
        rfl⟩
    · cases e0 with
      | file d =>
        exfalso
        have hg' : getE s.root
            ("toolchain" :: "node" :: p.node_executable_in_tarball_segs) =
            some (.file d) := hg
        simp [isFileAt, hg'] at hno
      | dir cs =>
        exact ⟨.isADirectory _, by
          simp only [copyOp, run_bind, getRootM, h2, hg, setRootOr]
          rfl⟩
      | symlink t =>
        exact ⟨.isADirectory _, by
          simp only [copyOp, run_bind, getRootM, h2, hg, setRootOr]
          rfl⟩
  rcases hn : getE s.root ["nni_node"] with _ | e0
  · rcases hr : s.root with d | rcs | t
    · refine ⟨.fileNotFound ["nni_node"], s, ?_⟩
      have hsetfail : setE s.root ["nni_node"] (.dir []) = none := by
        rw [hr]
        rfl
      simp only [run_bind, prepare_nni_node, rmtreeIgnoreOp, mkdirOp,
        getRootM, raiseE, run_pure, hn, hsetfail, setRootOr]
    · have hset : setE s.root ["nni_node"] (.dir []) =
          some (.dir (setC rcs "nni_node" (.dir []))) := by
        rw [hr]
        rfl
      have hmid : getE (FsEntry.dir (setC rcs "nni_node" (.dir [])))
          ["nni_node"] = some (.dir []) := by
        simp only [getE, getC_setC_self, Option.some_bind, getE_nil]
      have hw : getE (FsEntry.dir (setC rcs "nni_node" (.dir [])))
          ["nni_node", "__init__.py"] = none := by
        have h1 : getE (FsEntry.dir (setC rcs "nni_node" (.dir [])))
            (["nni_node"] ++ ["__init__.py"]) = none := by
          rw [getE_append, hmid, Option.some_bind]
          rfl
        exact h1
      obtain ⟨r3, hset3, -⟩ :=
        setE_child_get (FsEntry.dir (setC rcs "nni_node" (.dir [])))
          ["nni_node"] "__init__.py"
          (.file (.textF "\"\"\"NNI node.js modules.\"\"\"\n")) [] hmid
      have hset3' : setE (FsEntry.dir (setC rcs "nni_node" (.dir [])))
          ["nni_node", "__init__.py"]
          (.file (.textF "\"\"\"NNI node.js modules.\"\"\"\n")) = some r3 := hset3
      have hr3src : getE r3
          (["toolchain", "node"] ++ p.node_executable_in_tarball_segs) =
          getE s.root
            (["toolchain", "node"] ++ p.node_executable_in_tarball_segs) := by
        rw [getE_setE_indep _ _ _ _ _ hset3' (by rfl)]
        have h2 : getE (FsEntry.dir (setC rcs "nni_node" (.dir [])))
            ("toolchain" :: "node" :: p.node_executable_in_tarball_segs) =
            getE (FsEntry.dir rcs)
              ("toolchain" :: "node" :: p.node_executable_in_tarball_segs) := by
          simp only [getE,
            getC_setC_ne _ _ _ _ (by decide : ("toolchain" : String) ≠ "nni_node")]
        rw [hr]
        exact h2
      obtain ⟨e, he⟩ := hsrc r3 hr3src
      refine ⟨e, { s with root := r3 }, ?_⟩
      simp only [run_bind, prepare_nni_node, rmtreeIgnoreOp, mkdirOp,
        writeTextOp, getRootM, setRootM, raiseE, run_pure, hn, hset, hset3',
        hw, he, setRootOr]
    · refine ⟨.fileNotFound ["nni_node"], s, ?_⟩
      have hsetfail : setE s.root ["nni_node"] (.dir []) = none := by
        rw [hr]
        rfl
      simp only [run_bind, prepare_nni_node, rmtreeIgnoreOp, mkdirOp,
        getRootM, raiseE, run_pure, hn, hsetfail, setRootOr]
  · cases e0 with
    | file d =>
      refine ⟨.fileExists ["nni_node"], s, ?_⟩
      simp only [run_bind, prepare_nni_node, rmtreeIgnoreOp, mkdirOp,
        getRootM, raiseE, run_pure, hn, setRootOr]
    | symlink t =>
      refine ⟨.fileExists ["nni_node"], s, ?_⟩
      simp only [run_bind, prepare_nni_node, rmtreeIgnoreOp, mkdirOp,
        getRootM, raiseE, run_pure, hn, setRootOr]
    | dir cs =>
      obtain ⟨rcs, hr⟩ := getE_cons_inv _ _ _ _ hn
      have hrm : removeE s.root ["nni_node"] = .dir (delC rcs "nni_node") := by
        rw [hr]
        rfl
      have hrmn : getE (FsEntry.dir (delC rcs "nni_node")) ["nni_node"] = none := by
        simp only [getE, getC_delC_self, Option.none_bind]
      have hset : setE (FsEntry.dir (delC rcs "nni_node")) ["nni_node"]
          (.dir []) =
          some (.dir (setC (delC rcs "nni_node") "nni_node" (.dir []))) := rfl
      have hmid : getE
          (FsEntry.dir (setC (delC rcs "nni_node") "nni_node" (.dir [])))
          ["nni_node"] = some (.dir []) := by
        simp only [getE, getC_setC_self, Option.some_bind, getE_nil]
      have hw : getE
          (FsEntry.dir (setC (delC rcs "nni_node") "nni_node" (.dir [])))
          ["nni_node", "__init__.py"] = none := by
        have h1 : getE
            (FsEntry.dir (setC (delC rcs "nni_node") "nni_node" (.dir [])))
            (["nni_node"] ++ ["__init__.py"]) = none := by
          rw [getE_append, hmid, Option.some_bind]
          rfl
        exact h1
      obtain ⟨r3, hset3, -⟩ :=
        setE_child_get
          (FsEntry.dir (setC (delC rcs "nni_node") "nni_node" (.dir [])))
          ["nni_node"] "__init__.py"
          (.file (.textF "\"\"\"NNI node.js modules.\"\"\"\n")) [] hmid
      have hset3' : setE
          (FsEntry.dir (setC (delC rcs "nni_node") "nni_node" (.dir [])))
          ["nni_node", "__init__.py"]
          (.file (.textF "\"\"\"NNI node.js modules.\"\"\"\n")) = some r3 := hset3
      have hr3src : getE r3
          (["toolchain", "node"] ++ p.node_executable_in_tarball_segs) =
          getE s.root
            (["toolchain", "node"] ++ p.node_executable_in_tarball_segs) := by
        rw [getE_setE_indep _ _ _ _ _ hset3' (by rfl)]
        have h2 : getE
            (FsEntry.dir (setC (delC rcs "nni_node") "nni_node" (.dir [])))
            ("toolchain" :: "node" :: p.node_executable_in_tarball_segs) =
            getE (FsEntry.dir rcs)
              ("toolchain" :: "node" :: p.node_executable_in_tarball_segs) := by
          simp only [getE,
            getC_setC_ne _ _ _ _ (by decide : ("toolchain" : String) ≠ "nni_node"),
            getC_delC_ne _ _ _ (by decide : ("toolchain" : String) ≠ "nni_node")]
        rw [hr]
        exact h2
      obtain ⟨e, he⟩ := hsrc r3 hr3src
      refine ⟨e, { s with root := r3 }, ?_⟩
      simp only [run_bind, prepare_nni_node, rmtreeIgnoreOp, mkdirOp,
        writeTextOp, getRootM, setRootM, raiseE, run_pure, hn, hrm, hrmn,
        hset, hset3', hw, he, setRootOr]

/-- Witness for C10: with the global-toolchain flag and no local toolchain
on disk, the development build fails. -/
theorem C10_global_toolchain_precondition_witness :
    ∃ e s1, build envC10 profLinux "" stC10 = (Except.error e, s1) := by
  exact (C10_global_toolchain_precondition envC10 profLinux rfl).2 stC10 (by decide)

/-! ### Sequencing and stdout lemmas for claim C4 -/

theorem seq_ok {α β : Type} {m : PyM α} {f : α → PyM β} {s s1 : St} {a : α}
    (h : m s = (Except.ok a, s1)) : (m >>= f) s = f a s1 := by
  rw [run_bind, h]

theorem seq_err {α β : Type} {m : PyM α} {f : α → PyM β} {s s1 : St} {e : PyErr}
    (h : m s = (Except.error e, s1)) : (m >>= f) s = (Except.error e, s1) := by
  rw [run_bind, h]

theorem noPrint_raise {α : Type} (e : PyErr) : NoPrint (raiseE (α := α) e) :=
  fun _ => rfl

theorem noPrint_pure {α : Type} (a : α) : NoPrint (pure (f := PyM) a) :=
  fun _ => rfl

theorem noPrint_getRootM : NoPrint getRootM := fun _ => rfl

theorem noPrint_setRootM (r : FsEntry) : NoPrint (setRootM r) := fun _ => rfl

theorem noPrint_liftExc {α : Type} (x : Except PyErr α) : NoPrint (liftExc x) := by
  intro s
  cases x <;> rfl

theorem noPrint_setRootOr (e : PyErr) (o : Option FsEntry) :
    NoPrint (setRootOr e o) := by
  intro s
  cases o <;> rfl

theorem noPrint_httpGet (url : String) (ok : Bool) : NoPrint (httpGetOp url ok) := by
  intro s
  cases ok <;> rfl

theorem noPrint_bind {α β : Type} (m : PyM α) (f : α → PyM β)
    (hm : NoPrint m) (hf : ∀ a, NoPrint (f a)) : NoPrint (m >>= f) := by
  intro s
  rw [run_bind]
  rcases hrun : m s with ⟨res, s1⟩
  have h1 : s1.stdout = s.stdout := by
    have := hm s
    rw [hrun] at this
    exact this
  cases res with
  | error e => exact h1
  | ok a =>
    have := hf a s1
    rw [this, h1]

theorem noPrint_rootStep {α : Type} (k : FsEntry → PyM α)
    (hk : ∀ r, NoPrint (k r)) : NoPrint (getRootM >>= k) :=
  noPrint_bind _ _ noPrint_getRootM hk

theorem noPrint_jsonLoad (p : List String) : NoPrint (jsonLoad p) := by
  refine noPrint_rootStep _ (fun r => ?_)
  intro s
  rcases getE r p with _ | e
  · rfl
  · cases e with
    | file d => cases d <;> rfl
    | dir cs => rfl
    | symlink t => rfl

theorem noPrint_jsonDump (p : List String) (j : JVal) : NoPrint (jsonDump p j) := by
  refine noPrint_rootStep _ (fun r => ?_)
  intro s
  rcases getE r p with _ | e
  · exact noPrint_setRootOr _ _ s
  · cases e with
    | file d => exact noPrint_setRootOr _ _ s
    | dir cs => rfl
    | symlink t => exact noPrint_setRootOr _ _ s

theorem noPrint_writeText (p : List String) (txt : String) :
    NoPrint (writeTextOp p txt) := by
  refine noPrint_rootStep _ (fun r => ?_)
  intro s
  rcases getE r p with _ | e
  · exact noPrint_setRootOr _ _ s
  · cases e with
    | file d => exact noPrint_setRootOr _ _ s
    | dir cs => rfl
    | symlink t => exact noPrint_setRootOr _ _ s

theorem noPrint_mkdir (p : List String) (existOk : Bool) :
    NoPrint (mkdirOp p existOk) := by
  refine noPrint_rootStep _ (fun r => ?_)
  intro s
  rcases getE r p with _ | e
  · exact noPrint_setRootOr _ _ s
  · cases e with
    | file d => rfl
    | dir cs => cases existOk <;> rfl
    | symlink t => rfl

theorem noPrint_rmtreeIgnore (p : List String) : NoPrint (rmtreeIgnoreOp p) := by
  refine noPrint_rootStep _ (fun r => ?_)
  intro s
  rcases getE r p with _ | e
  · rfl
  · cases e <;> rfl

theorem noPrint_unlink (p : List String) : NoPrint (unlinkOp p) := by
  refine noPrint_rootStep _ (fun r => ?_)
  intro s
  rcases getE r p with _ | e
  · rfl
  · cases e <;> rfl

theorem noPrint_copy (src dst : List String) : NoPrint (copyOp src dst) := by
  refine noPrint_rootStep _ (fun r => ?_)
  intro s
  rcases getE r src with _ | e
  · rfl
  · cases e with
    | file d =>
      dsimp only
      rcases getE r dst with _ | e2
      · exact noPrint_setRootOr _ _ s
      · cases e2 with
        | file d2 => exact noPrint_setRootOr _ _ s
        | dir cs => exact noPrint_setRootOr _ _ s
        | symlink t => exact noPrint_setRootOr _ _ s
    | dir cs => rfl
    | symlink t => rfl

theorem noPrint_copyfile (src dst : List String) : NoPrint (copyfileOp src dst) := by
  refine noPrint_rootStep _ (fun r => ?_)
  intro s
  rcases getE r src with _ | e
  · rfl
  · cases e with
    | file d =>
      dsimp only
      rcases getE r dst with _ | e2
      · exact noPrint_setRootOr _ _ s
      · cases e2 with
        | file d2 => exact noPrint_setRootOr _ _ s
        | dir cs => rfl
        | symlink t => exact noPrint_setRootOr _ _ s
    | dir cs => rfl
    | symlink t => rfl

theorem noPrint_copytree (src dst : List String) : NoPrint (copytreeOp src dst) := by
  refine noPrint_rootStep _ (fun r => ?_)
  intro s
  rcases getE r src with _ | e
  · rfl
  · cases e with
    | file d => rfl
    | dir cs =>
      dsimp only
      rcases getE r dst with _ | e2
      · exact noPrint_setRootOr _ _ s
      · rfl
    | symlink t => rfl

theorem noPrint_rename (old new : List String) : NoPrint (renameOp old new) := by
  refine noPrint_rootStep _ (fun r => ?_)
  intro s
  rcases getE r old with _ | e
  · rfl
  · exact noPrint_setRootOr _ _ s

theorem noPrint_symlink (target link : List String) :
    NoPrint (symlinkOp target link) := by
  refine noPrint_rootStep _ (fun r => ?_)
  intro s
  rcases getE r link with _ | e
  · exact noPrint_setRootOr _ _ s
  · rfl

theorem noPrint_extract (dst : List String) (entries : List (String × FsEntry)) :
    NoPrint (extractOp dst entries) := by
  refine noPrint_rootStep _ (fun r => ?_)
  intro s
  rcases getE r dst with _ | e
  · rfl
  · cases e with
    | file d => rfl
    | dir cs => exact noPrint_setRootOr _ _ s
    | symlink t => rfl

theorem noPrint_yarn (env : Env) (cwd args : List String) :
    NoPrint (yarnOp env cwd args) := by
  refine noPrint_rootStep _ (fun r => ?_)
  intro s
  rcases getE r cwd with _ | e
  · rfl
  · cases e with
    | file d => rfl
    | dir cs => rcases env.yarnOk cwd args with _ | _ <;> rfl
    | symlink t => rfl

theorem stdoutExt_of_noPrint {α : Type} (m : PyM α) (h : NoPrint m) :
    StdoutExt m := by
  intro s
  refine ⟨[], ?_, by simp, by simp⟩
  rw [h s, List.append_nil]

theorem stdoutExt_printM (msg : String) (h1 : msg ≠ "Copying files")
    (h2 : msg ≠ "Creating symlinks") : StdoutExt (printM msg) := by
  intro s
  refine ⟨[msg], rfl, ?_, ?_⟩
  · intro hm
    exact h1 (List.mem_singleton.mp hm).symm
  · intro hm
    exact h2 (List.mem_singleton.mp hm).symm

theorem stdoutExt_bind {α β : Type} (m : PyM α) (f : α → PyM β)
    (hm : StdoutExt m) (hf : ∀ a, StdoutExt (f a)) : StdoutExt (m >>= f) := by
  intro s
  rw [run_bind]
  rcases hrun : m s with ⟨res, s1⟩
  obtain ⟨t1, ht1, hc1, hl1⟩ := hm s
  rw [hrun] at ht1
  cases res with
  | error e => exact ⟨t1, ht1, hc1, hl1⟩
  | ok a =>
    obtain ⟨t2, ht2, hc2, hl2⟩ := hf a s1
    refine ⟨t1 ++ t2, ?_, ?_, ?_⟩
    · rw [ht2, ht1, List.append_assoc]
    · intro hm2
      exact (List.mem_append.mp hm2).elim (fun h => hc1 h) (fun h => hc2 h)
    · intro hm2
      exact (List.mem_append.mp hm2).elim (fun h => hl1 h) (fun h => hl2 h)

theorem stdoutExt_tryAll {α : Type} (m : PyM α) (h : PyErr → PyM α)
    (hm : StdoutExt m) (hh : ∀ e, StdoutExt (h e)) : StdoutExt (tryAll m h) := by
  intro s
  rw [tryAll]
  rcases hrun : m s with ⟨res, s1⟩
  obtain ⟨t1, ht1, hc1, hl1⟩ := hm s
  rw [hrun] at ht1
  cases res with
  | ok a => exact ⟨t1, ht1, hc1, hl1⟩
  | error e =>
    obtain ⟨t2, ht2, hc2, hl2⟩ := hh e s1
    refine ⟨t1 ++ t2, ?_, ?_, ?_⟩
    · rw [ht2, ht1, List.append_assoc]
    · intro hm2
      exact (List.mem_append.mp hm2).elim (fun h => hc1 h) (fun h => hc2 h)
    · intro hm2
      exact (List.mem_append.mp hm2).elim (fun h => hl1 h) (fun h => hl2 h)

theorem ne_of_ne_length {a b : String} (h : a.length ≠ b.length) : a ≠ b :=
  fun hh => h (hh ▸ rfl)

theorem stdoutExt_print_prefixed (pre : String) (u : String)
    (h1 : pre.length + u.length ≠ 13) (h2 : pre.length + u.length ≠ 17) :
    StdoutExt (printM (pre ++ u)) := by
  refine stdoutExt_printM _ (ne_of_ne_length ?_) (ne_of_ne_length ?_)
  · rw [String.length_append]
    exact h1
  · rw [String.length_append]
    exact h2

/-! ### Stdout bounds for the phases before artifact assembly -/

theorem stdoutExt_download (env : Env) (p : Profile) :
    StdoutExt (download_toolchain env p) := by
  refine stdoutExt_bind _ _ (stdoutExt_of_noPrint _ noPrint_getRootM) (fun r => ?_)
  by_cases hc : isFileAt r
      (["toolchain", "node"] ++ p.node_executable_in_tarball_segs) = true
  · rw [if_pos hc]
    exact stdoutExt_of_noPrint _ (noPrint_pure ())
  · rw [if_neg hc]
    refine stdoutExt_bind _ _ (stdoutExt_of_noPrint _ (noPrint_mkdir _ _))
      (fun _ => ?_)
    refine stdoutExt_bind _ _
      (stdoutExt_print_prefixed "Downloading node.js from " _
        (by
          have h25 : ("Downloading node.js from ").length = 25 := rfl
          omega)
        (by
          have h25 : ("Downloading node.js from ").length = 25 := rfl
          omega))
      (fun _ => ?_)
    refine stdoutExt_bind _ _ (stdoutExt_of_noPrint _ (noPrint_httpGet _ _))
      (fun _ => ?_)
    refine stdoutExt_bind _ _ (stdoutExt_printM _ (by decide) (by decide))
      (fun _ => ?_)
    refine stdoutExt_bind _ _ (stdoutExt_of_noPrint _ (noPrint_extract _ _))
      (fun _ => ?_)
    refine stdoutExt_bind _ _ (stdoutExt_of_noPrint _ (noPrint_rmtreeIgnore _))
      (fun _ => ?_)
    refine stdoutExt_bind _ _ (stdoutExt_of_noPrint _ (noPrint_rename _ _))
      (fun _ => ?_)
    refine stdoutExt_bind _ _
      (stdoutExt_print_prefixed "Downloading yarn from " _
        (by
          have h22 : ("Downloading yarn from ").length = 22 := rfl
          omega)
        (by
          have h22 : ("Downloading yarn from ").length = 22 := rfl
          omega))
      (fun _ => ?_)
    refine stdoutExt_bind _ _ (stdoutExt_of_noPrint _ (noPrint_httpGet _ _))
      (fun _ => ?_)
    refine stdoutExt_bind _ _ (stdoutExt_printM _ (by decide) (by decide))
      (fun _ => ?_)
    refine stdoutExt_bind _ _ (stdoutExt_of_noPrint _ (noPrint_extract _ _))
      (fun _ => ?_)
    refine stdoutExt_bind _ _ (stdoutExt_of_noPrint _ (noPrint_rmtreeIgnore _))
      (fun _ => ?_)
    exact stdoutExt_of_noPrint _ (noPrint_rename _ _)

theorem stdoutExt_prepare (p : Profile) : StdoutExt (prepare_nni_node p) := by
  refine stdoutExt_bind _ _ (stdoutExt_of_noPrint _ (noPrint_rmtreeIgnore _))
    (fun _ => ?_)
  refine stdoutExt_bind _ _ (stdoutExt_of_noPrint _ (noPrint_mkdir _ _))
    (fun _ => ?_)
  refine stdoutExt_bind _ _ (stdoutExt_of_noPrint _ (noPrint_writeText _ _))
    (fun _ => ?_)
  exact stdoutExt_of_noPrint _ (noPrint_copy _ _)

theorem stdoutExt_update (env : Env) : StdoutExt (update_package env) := by
  rw [update_package]
  by_cases hc : jupyterLabMajor env = "2"
  · rw [if_pos hc]
    refine stdoutExt_bind _ _ (stdoutExt_of_noPrint _ (noPrint_jsonLoad _))
      (fun _ => ?_)
    refine stdoutExt_bind _ _ (stdoutExt_of_noPrint _ (noPrint_jsonDump _ _))
      (fun _ => ?_)
    refine stdoutExt_bind _ _ (stdoutExt_of_noPrint _ (noPrint_liftExc _))
      (fun _ => ?_)
    refine stdoutExt_bind _ _ (stdoutExt_of_noPrint _ (noPrint_liftExc _))
      (fun _ => ?_)
    refine stdoutExt_bind _ _ (stdoutExt_of_noPrint _ (noPrint_liftExc _))
      (fun _ => ?_)
    refine stdoutExt_bind _ _ (stdoutExt_of_noPrint _ (noPrint_liftExc _))
      (fun _ => ?_)
    refine stdoutExt_bind _ _ (stdoutExt_of_noPrint _ (noPrint_jsonDump _ _))
      (fun _ => ?_)
    exact stdoutExt_printM _ (by decide) (by decide)
  · rw [if_neg hc]
    exact stdoutExt_of_noPrint _ (noPrint_pure ())

theorem stdoutExt_compile (env : Env) (release : String) :
    StdoutExt (compile_ts env release) := by
  rw [compile_ts]
  refine stdoutExt_bind _ _ (stdoutExt_printM _ (by decide) (by decide))
    (fun _ => ?_)
  refine stdoutExt_bind _ _ (stdoutExt_of_noPrint _ (noPrint_yarn _ _ _))
    (fun _ => ?_)
  refine stdoutExt_bind _ _ (stdoutExt_of_noPrint _ (noPrint_yarn _ _ _))
    (fun _ => ?_)
  refine stdoutExt_bind _ _ (stdoutExt_of_noPrint _ (noPrint_rmtreeIgnore _))
    (fun _ => ?_)
  refine stdoutExt_bind _ _ (stdoutExt_of_noPrint _ (noPrint_copytree _ _))
    (fun _ => ?_)
  refine stdoutExt_bind _ _ (stdoutExt_printM _ (by decide) (by decide))
    (fun _ => ?_)
  refine stdoutExt_bind _ _ (stdoutExt_of_noPrint _ (noPrint_yarn _ _ _))
    (fun _ => ?_)
  refine stdoutExt_bind _ _ (stdoutExt_of_noPrint _ (noPrint_yarn _ _ _))
    (fun _ => ?_)
  refine stdoutExt_bind _ _ (stdoutExt_printM _ (by decide) (by decide))
    (fun _ => ?_)
  by_cases hc : release ≠ ""
  · rw [if_pos hc]
    refine stdoutExt_bind _ _ (stdoutExt_of_noPrint _ (noPrint_yarn _ _ _))
      (fun _ => ?_)
    exact stdoutExt_of_noPrint _ (noPrint_yarn _ _ _)
  · rw [if_neg hc]
    refine stdoutExt_tryAll _ _
      (stdoutExt_bind _ _ (stdoutExt_of_noPrint _ (noPrint_yarn _ _ _))
        (fun _ => stdoutExt_of_noPrint _ (noPrint_yarn _ _ _)))
      (fun _ => ?_)
    refine stdoutExt_bind _ _ (stdoutExt_printM _ (by decide) (by decide))
      (fun _ => ?_)
    exact stdoutExt_printM _ (by decide) (by decide)

/-! ### Failure of the optional module in release mode -/

theorem yarn_fails (env : Env) (cwd args : List String)
    (h : env.yarnOk cwd args = false) (s : St) :
    ∃ e s1, yarnOp env cwd args s = (Except.error e, s1) := by
  rcases hg : getE s.root cwd with _ | e0
  · refine ⟨.fileNotFound cwd, s, ?_⟩
    simp only [yarnOp, run_bind, getRootM, hg, raiseE]
  · cases e0 with
    | file d =>
      refine ⟨.fileNotFound cwd, s, ?_⟩
      simp only [yarnOp, run_bind, getRootM, hg, raiseE]
    | symlink t =>
      refine ⟨.fileNotFound cwd, s, ?_⟩
      simp only [yarnOp, run_bind, getRootM, hg, raiseE]
    | dir cs =>
      refine ⟨.calledProcessError cwd args, s, ?_⟩
      simp only [yarnOp, run_bind, getRootM, hg, h, Bool.false_eq_true,
        if_false, raiseE]

theorem compile_release_fails (env : Env) (release : String)
    (hrel : release ≠ "")
    (hjup : env.yarnOk ["ts", "jupyter_extension"] [] = false) (s : St) :
    ∃ e s1, compile_ts env release s = (Except.error e, s1) := by
  rcases h1 : yarnOp env ["ts", "nni_manager"] []
      { s with stdout := s.stdout ++ ["Building NNI manager"] } with ⟨res1, s1⟩
  cases res1 with
  | error e => exact ⟨e, s1, by simp only [compile_ts, run_bind, printM, h1]⟩
  | ok a =>
    cases a
    rcases h2 : yarnOp env ["ts", "nni_manager"] ["build"] s1 with ⟨res2, s2⟩
    cases res2 with
    | error e =>
      exact ⟨e, s2, by simp only [compile_ts, run_bind, printM, h1, h2]⟩
    | ok a =>
      cases a
      rcases h3 : rmtreeIgnoreOp ["ts", "nni_manager", "dist", "config"] s2
        with ⟨res3, s3⟩
      cases res3 with
      | error e =>
        exact ⟨e, s3, by simp only [compile_ts, run_bind, printM, h1, h2, h3]⟩
      | ok a =>
        cases a
        rcases h4 : copytreeOp ["ts", "nni_manager", "config"]
            ["ts", "nni_manager", "dist", "config"] s3 with ⟨res4, s4⟩
        cases res4 with
        | error e =>
          exact ⟨e, s4, by
            simp only [compile_ts, run_bind, printM, h1, h2, h3, h4]⟩
        | ok a =>
          cases a
          rcases h5 : yarnOp env ["ts", "webui"] []
              { s4 with stdout := s4.stdout ++ ["Building web UI"] }
            with ⟨res5, s5⟩
          cases res5 with
          | error e =>
            exact ⟨e, s5, by
              simp only [compile_ts, run_bind, printM, h1, h2, h3, h4, h5]⟩
          | ok a =>
            cases a
            rcases h6 : yarnOp env ["ts", "webui"] ["build"] s5 with ⟨res6, s6⟩
            cases res6 with
            | error e =>
              exact ⟨e, s6, by
                simp only [compile_ts, run_bind, printM, h1, h2, h3, h4, h5, h6]⟩
            | ok a =>
              cases a
              obtain ⟨e7, s7, h7⟩ := yarn_fails env ["ts", "jupyter_extension"] []
                hjup { s6 with stdout :=
                  s6.stdout ++ ["Building JupyterLab extension"] }
              refine ⟨e7, s7, ?_⟩
              simp only [compile_ts, run_bind, printM, h1, h2, h3, h4, h5, h6,
                if_pos hrel, h7]

/-! ### Claim C4 -/

theorem not_mem_append {α : Type} {a : α} {l1 l2 : List α} (h1 : a ∉ l1)
    (h2 : a ∉ l2) : a ∉ l1 ++ l2 :=
  fun hm => (List.mem_append.mp hm).elim h1 h2

set_option maxHeartbeats 1600000 in
/-- C4: a failing package-manager invocation for the optional
`jupyter_extension` module is fatal in release mode and non-fatal in
development mode.  First conjunct: with a truthy release version, the
failure propagates out of `build` and neither assembly strategy runs (the
stdout extension contains neither strategy banner, and those banners are the
first action of `copy_nni_node` / `symlink_nni_node` respectively).  Second
conjunct: in a development build on Linux, the failure is caught inside
`compile_ts`, the skip message is logged, and the build completes with the
two mandatory modules' outputs assembled into `nni_node` (web-UI build as
`static`, manager dist entries, manifest and `node_modules` links). -/
theorem C4_optional_module_failure (env : Env) (p : Profile) :
    (∀ (release : String) (s : St), release ≠ "" →
      env.yarnOk ["ts", "jupyter_extension"] [] = false →
      ∃ e s1 t, build env p release s = (Except.error e, s1) ∧
        s1.stdout = s.stdout ++ t ∧
        "Copying files" ∉ t ∧ "Creating symlinks" ∉ t) ∧
      (∀ (fdn fmain fpkg : FileData) (ccs nmcs wbcs : List (String × FsEntry)),
        env.platform = "linux" →
        env.globalToolchain = true →
        jupyterLabMajor env ≠ "2" →
        env.yarnOk ["ts", "nni_manager"] [] = true →
        env.yarnOk ["ts", "nni_manager"] ["build"] = true →
        env.yarnOk ["ts", "webui"] [] = true →
        env.yarnOk ["ts", "webui"] ["build"] = true →
        env.yarnOk ["ts", "jupyter_extension"] [] = false →
        env.yarnFx = (fun _ _ r => r) →
        (build env profLinux ""
            { root := devRoot fdn fmain fpkg ccs nmcs wbcs,
              downloads := [], stdout := [] }).1 = Except.ok () ∧
          "Failed to build JupyterLab extension, skip for develop mode" ∈
            (build env profLinux ""
              { root := devRoot fdn fmain fpkg ccs nmcs wbcs,
                downloads := [], stdout := [] }).2.stdout ∧
          getE (build env profLinux ""
              { root := devRoot fdn fmain fpkg ccs nmcs wbcs,
                downloads := [], stdout := [] }).2.root
            ["nni_node", "static"] = some (.symlink ["ts", "webui", "build"]) ∧
          getE (build env profLinux ""
              { root := devRoot fdn fmain fpkg ccs nmcs wbcs,
                downloads := [], stdout := [] }).2.root
            ["nni_node", "main.js"] =
            some (.symlink ["ts", "nni_manager", "dist", "main.js"]) ∧
          getE (build env profLinux ""
              { root := devRoot fdn fmain fpkg ccs nmcs wbcs,
                downloads := [], stdout := [] }).2.root
            ["nni_node", "config"] =
            some (.symlink ["ts", "nni_manager", "dist", "config"]) ∧
          getE (build env profLinux ""
              { root := devRoot fdn fmain fpkg ccs nmcs wbcs,
                downloads := [], stdout := [] }).2.root
            ["nni_node", "package.json"] =
            some (.symlink ["ts", "nni_manager", "package.json"]) ∧
          getE (build env profLinux ""
              { root := devRoot fdn fmain fpkg ccs nmcs wbcs,
                downloads := [], stdout := [] }).2.root
            ["nni_node", "node_modules"] =
            some (.symlink ["ts", "nni_manager", "node_modules"])) := by
  constructor
  · intro release s hrel hjup
    have hcond : ((release != "") || !env.globalToolchain) = true := by
      have hb : (release != "") = true := by
        simpa using hrel
      rw [hb, Bool.true_or]
    rcases h0 : download_toolchain env p s with ⟨res0, s0⟩
    obtain ⟨t0, ht0, hc0, hl0⟩ := stdoutExt_download env p s
    have ht0' : s0.stdout = s.stdout ++ t0 := by
      rw [h0] at ht0
      exact ht0
    cases res0 with
    | error e =>
      refine ⟨e, s0, t0, ?_, ht0', hc0, hl0⟩
      simp only [build, if_pos hcond, run_bind, h0]
    | ok a =>
      cases a
      rcases h1 : prepare_nni_node p s0 with ⟨res1, s1⟩
      obtain ⟨t1, ht1, hc1, hl1⟩ := stdoutExt_prepare p s0
      have ht1' : s1.stdout = s.stdout ++ (t0 ++ t1) := by
        rw [h1] at ht1
        rw [ht1, ht0', List.append_assoc]
      cases res1 with
      | error e =>
        refine ⟨e, s1, t0 ++ t1, ?_, ht1', not_mem_append hc0 hc1,
          not_mem_append hl0 hl1⟩
        simp only [build, if_pos hcond, run_bind, h0, h1]
      | ok a =>
        cases a
        rcases h2 : update_package env s1 with ⟨res2, s2⟩
        obtain ⟨t2, ht2, hc2, hl2⟩ := stdoutExt_update env s1
        have ht2' : s2.stdout = s.stdout ++ (t0 ++ t1 ++ t2) := by
          rw [h2] at ht2
          rw [ht2, ht1']
          simp only [List.append_assoc]
        cases res2 with
        | error e =>
          refine ⟨e, s2, t0 ++ t1 ++ t2, ?_, ht2',
            not_mem_append (not_mem_append hc0 hc1) hc2,
            not_mem_append (not_mem_append hl0 hl1) hl2⟩
          simp only [build, if_pos hcond, run_bind, h0, h1, h2]
        | ok a =>
          cases a
          obtain ⟨e3, s3, h3⟩ := compile_release_fails env release hrel hjup s2
          obtain ⟨t3, ht3, hc3, hl3⟩ := stdoutExt_compile env release s2
          have ht3' : s3.stdout = s.stdout ++ (t0 ++ t1 ++ t2 ++ t3) := by
            rw [h3] at ht3
            rw [ht3, ht2']
            simp only [List.append_assoc]
          refine ⟨e3, s3, t0 ++ t1 ++ t2 ++ t3, ?_, ht3',
            not_mem_append (not_mem_append (not_mem_append hc0 hc1) hc2) hc3,
            not_mem_append (not_mem_append (not_mem_append hl0 hl1) hl2) hl3⟩
          simp only [build, if_pos hcond, run_bind, h0, h1, h2, h3]
  · intro fdn fmain fpkg ccs nmcs wbcs hplat hglob hmaj hy1 hy2 hy3 hy4 hjup hfx
    simp [build, prepare_nni_node, update_package, restore_package,
        compile_ts, symlink_nni_node, linkDistEntries, symlinkJupyterBranch,
        devRoot, run_bind, run_pure, getRootM, setRootM, setRootOr, printM,
        raiseE, liftExc, tryAll, yarnOp, jsonLoad, jsonDump, writeTextOp,
        mkdirOp, rmtreeIgnoreOp, rmtreeOp, unlinkOp, copyOp, copyfileOp,
        copytreeOp, renameOp, symlinkOp, httpGetOp, extractOp, getE, getC,
        setC, delC, setE, setMk, removeE, isFileAt, existsAt, childLookup,
        hplat, hglob, hy1, hy2, hy3, hy4, hjup, hfx, if_neg hmaj, profLinux]

theorem C4_optional_module_failure_witness :
    (∃ e s1 t, build envC4 profLinux "1.0"
        { root := FsEntry.dir [], downloads := [], stdout := [] } =
        (Except.error e, s1) ∧
      s1.stdout = ([] : List String) ++ t ∧
      "Copying files" ∉ t ∧ "Creating symlinks" ∉ t) ∧
      ((build envC4 profLinux ""
          { root := devRoot (.binF 0) (.binF 1) (.binF 2) [] [] [],
            downloads := [], stdout := [] }).1 = Except.ok () ∧
        "Failed to build JupyterLab extension, skip for develop mode" ∈
          (build envC4 profLinux ""
            { root := devRoot (.binF 0) (.binF 1) (.binF 2) [] [] [],
              downloads := [], stdout := [] }).2.stdout ∧
        getE (build envC4 profLinux ""
            { root := devRoot (.binF 0) (.binF 1) (.binF 2) [] [] [],
              downloads := [], stdout := [] }).2.root
          ["nni_node", "static"] = some (.symlink ["ts", "webui", "build"]) ∧
        getE (build envC4 profLinux ""
            { root := devRoot (.binF 0) (.binF 1) (.binF 2) [] [] [],
              downloads := [], stdout := [] }).2.root
          ["nni_node", "main.js"] =
          some (.symlink ["ts", "nni_manager", "dist", "main.js"]) ∧
        getE (build envC4 profLinux ""
            { root := devRoot (.binF 0) (.binF 1) (.binF 2) [] [] [],
              downloads := [], stdout := [] }).2.root
          ["nni_node", "config"] =
          some (.symlink ["ts", "nni_manager", "dist", "config"]) ∧
        getE (build envC4 profLinux ""
            { root := devRoot (.binF 0) (.binF 1) (.binF 2) [] [] [],
              downloads := [], stdout := [] }).2.root
          ["nni_node", "package.json"] =
          some (.symlink ["ts", "nni_manager", "package.json"]) ∧
        getE (build envC4 profLinux ""
            { root := devRoot (.binF 0) (.binF 1) (.binF 2) [] [] [],
              downloads := [], stdout := [] }).2.root
          ["nni_node", "node_modules"] =
          some (.symlink ["ts", "nni_manager", "node_modules"])) :=
  ⟨(C4_optional_module_failure envC4 profLinux).1 "1.0" _ (by decide) (by decide),
   (C4_optional_module_failure envC4 profLinux).2 (.binF 0) (.binF 1) (.binF 2)
     [] [] [] rfl rfl (by decide) (by decide) (by decide) (by decide)
     (by decide) (by decide) rfl⟩

/-! ### Claim C8 -/

theorem getC_of_mem_nodup (cs : List (String × FsEntry)) (p : String × FsEntry)
    (hmem : p ∈ cs) (hnd : (cs.map Prod.fst).Nodup) : getC cs p.1 = some p.2 := by
  induction cs with
  | nil => cases hmem
  | cons kv rest ih =>
    rw [List.map_cons] at hnd
    rcases List.mem_cons.mp hmem with h | h
    · subst h
      simp [getC]
    · have hne : kv.1 ≠ p.1 := by
        intro he
        exact (List.nodup_cons.mp hnd).1
          (by rw [he]; exact List.mem_map.mpr ⟨p, h, rfl⟩)
      rw [getC, if_neg hne]
      exact ih h (List.nodup_cons.mp hnd).2

theorem distFold_notin (todo : List (String × FsEntry)) :
    ∀ (acc : List (String × FsEntry)) (m : String), m ∉ todo.map Prod.fst →
      getC (distFold acc todo) m = getC acc m := by
  induction todo with
  | nil => intro acc m _; rfl
  | cons kv rest ih =>
    intro acc m hm
    obtain ⟨n, e⟩ := kv
    simp only [List.map_cons, List.mem_cons, not_or] at hm
    simp only [distFold]
    rw [ih _ m hm.2]
    by_cases hk : keepDist n e = true
    · rw [if_pos hk, getC_setC_ne acc n m e hm.1]
    · rw [if_neg hk]

theorem distFold_mem (todo : List (String × FsEntry)) :
    ∀ (acc : List (String × FsEntry)) (p : String × FsEntry), p ∈ todo →
      (todo.map Prod.fst).Nodup → keepDist p.1 p.2 = true →
      getC (distFold acc todo) p.1 = some p.2 := by
  induction todo with
  | nil => intro _ p hp _ _; cases hp
  | cons kv rest ih =>
    intro acc p hp hnd hk
    obtain ⟨n, e⟩ := kv
    rw [List.map_cons] at hnd
    simp only [distFold]
    rcases List.mem_cons.mp hp with h | h
    · have h1 : p.1 = n := by rw [h]
      have h2 : p.2 = e := by rw [h]
      rw [h1, h2] at hk
      rw [h1, h2, if_pos hk,
        distFold_notin rest _ n (List.nodup_cons.mp hnd).1]
      exact getC_setC_self acc n e
    · exact ih _ p h (List.nodup_cons.mp hnd).2 hk

theorem distFold_excl (todo : List (String × FsEntry)) :
    ∀ (acc : List (String × FsEntry)) (p : String × FsEntry), p ∈ todo →
      (todo.map Prod.fst).Nodup → keepDist p.1 p.2 = false →
      getC acc p.1 = none →
      getC (distFold acc todo) p.1 = none := by
  induction todo with
  | nil => intro _ p hp _ _ _; cases hp
  | cons kv rest ih =>
    intro acc p hp hnd hk hacc
    obtain ⟨n, e⟩ := kv
    rw [List.map_cons] at hnd
    simp only [distFold]
    rcases List.mem_cons.mp hp with h | h
    · have h1 : p.1 = n := by rw [h]
      have h2 : p.2 = e := by rw [h]
      rw [h1, h2] at hk
      rw [h1] at hacc
      rw [h1, if_neg (by rw [hk]; exact Bool.false_ne_true),
        distFold_notin rest _ n (List.nodup_cons.mp hnd).1]
      exact hacc
    · have hne : n ≠ p.1 := by
        intro he
        exact (List.nodup_cons.mp hnd).1
          (by rw [he]; exact List.mem_map.mpr ⟨p, h, rfl⟩)
      have hacc1 : getC (if keepDist n e = true then setC acc n e else acc) p.1 =
          none := by
        by_cases hk2 : keepDist n e = true
        · rw [if_pos hk2, getC_setC_ne acc n p.1 e (fun he => hne he.symm)]
          exact hacc
        · rw [if_neg hk2]
          exact hacc
      exact ih _ p h (List.nodup_cons.mp hnd).2 hk hacc1

theorem copyDistEntries_run (todo : List (String × FsEntry)) :
    ∀ (cs acc : List (String × FsEntry)) (pj : JVal)
      (wbcs jdcs : List (String × FsEntry)) (dl so : List String),
      (∀ p ∈ todo, getC cs p.1 = some p.2) →
      (∀ p ∈ todo, getC acc p.1 = none) →
      (todo.map Prod.fst).Nodup →
      (∀ p ∈ todo, (∃ d, p.2 = FsEntry.file d) ∨ (∃ l, p.2 = FsEntry.dir l)) →
      copyDistEntries todo
          { root := relRootAcc cs pj wbcs jdcs acc, downloads := dl,
            stdout := so } =
        (Except.ok (),
          { root := relRootAcc cs pj wbcs jdcs (distFold acc todo),
            downloads := dl, stdout := so }) := by
  induction todo with
  | nil => intro cs acc pj wbcs jdcs dl so _ _ _ _; rfl
  | cons kv rest ih =>
    intro cs acc pj wbcs jdcs dl so hsrc hfresh hnd hshape
    obtain ⟨n, e⟩ := kv
    rw [List.map_cons] at hnd
    have hn1 : n ∉ rest.map Prod.fst := (List.nodup_cons.mp hnd).1
    have hnd2 : (rest.map Prod.fst).Nodup := (List.nodup_cons.mp hnd).2
    have hsrcn : getC cs n = some e := hsrc (n, e) (List.mem_cons_self _ _)
    have hfreshn : getC acc n = none := hfresh (n, e) (List.mem_cons_self _ _)
    have hsrc2 : ∀ p ∈ rest, getC cs p.1 = some p.2 :=
      fun p hp => hsrc p (List.mem_cons_of_mem _ hp)
    have hshape2 : ∀ p ∈ rest,
        (∃ d, p.2 = FsEntry.file d) ∨ (∃ l, p.2 = FsEntry.dir l) :=
      fun p hp => hshape p (List.mem_cons_of_mem _ hp)
    have hfresh2' : ∀ p ∈ rest, getC acc p.1 = none :=
      fun p hp => hfresh p (List.mem_cons_of_mem _ hp)
    have hfresh2 : ∀ v : FsEntry, ∀ p ∈ rest, getC (setC acc n v) p.1 = none := by
      intro v p hp
      have hne : p.1 ≠ n := by
        intro he
        exact hn1 (by rw [← he]; exact List.mem_map.mpr ⟨p, hp, rfl⟩)
      rw [getC_setC_ne acc n p.1 v hne]
      exact hfresh2' p hp
    rcases hshape (n, e) (List.mem_cons_self _ _) with ⟨d, hd⟩ | ⟨l, hl⟩
    · have hd' : e = FsEntry.file d := hd
      subst hd'
      by_cases hn : n = "nni_manager.tsbuildinfo"
      · have hkeep : keepDist n (FsEntry.file d) = false := by
          simp [keepDist, hn]
        have hstep : copyOneDist n (FsEntry.file d) = pure () := by
          simp [copyOneDist, hn]
        have hfold : distFold acc ((n, FsEntry.file d) :: rest) =
            distFold acc rest := by
          simp only [distFold, hkeep, Bool.false_eq_true, if_false]
        simp only [copyDistEntries, hstep, run_bind, run_pure, hfold]
        exact ih cs acc pj wbcs jdcs dl so hsrc2 hfresh2' hnd2 hshape2
      · have hkeep : keepDist n (FsEntry.file d) = true := by
          simp [keepDist, hn]
        have hfold : distFold acc ((n, FsEntry.file d) :: rest) =
            distFold (setC acc n (FsEntry.file d)) rest := by
          simp only [distFold]
          rw [if_pos hkeep]
        have hstep : copyOneDist n (FsEntry.file d) =
            copyfileOp ["ts", "nni_manager", "dist", n] ["nni_node", n] := by
          simp [copyOneDist, hn]
        have hgs : getE (relRootAcc cs pj wbcs jdcs acc)
            ["ts", "nni_manager", "dist", n] = some (FsEntry.file d) := by
          simp [relRootAcc, getE, getC, hsrcn]
        have hgd : getE (relRootAcc cs pj wbcs jdcs acc) ["nni_node", n] =
            none := by
          simp [relRootAcc, getE, getC, hfreshn]
        have hset : setE (relRootAcc cs pj wbcs jdcs acc) ["nni_node", n]
            (FsEntry.file d) =
            some (relRootAcc cs pj wbcs jdcs (setC acc n (FsEntry.file d))) := by
          simp [relRootAcc, setE, setC, getC]
        simp only [copyDistEntries, hstep, run_bind, copyfileOp, getRootM,
          hgs, hgd, hset, setRootOr, setRootM, hfold]
        exact ih cs (setC acc n (FsEntry.file d)) pj wbcs jdcs dl so hsrc2
          (hfresh2 _) hnd2 hshape2
    · have hl' : e = FsEntry.dir l := hl
      subst hl'
      have hfold : distFold acc ((n, FsEntry.dir l) :: rest) =
          distFold (setC acc n (FsEntry.dir l)) rest := by
        simp only [distFold]
        rw [if_pos (show keepDist n (FsEntry.dir l) = true from rfl)]
      have hstep : copyOneDist n (FsEntry.dir l) =
          copytreeOp ["ts", "nni_manager", "dist", n] ["nni_node", n] := rfl
      have hgs : getE (relRootAcc cs pj wbcs jdcs acc)
          ["ts", "nni_manager", "dist", n] = some (FsEntry.dir l) := by
        simp [relRootAcc, getE, getC, hsrcn]
      have hgd : getE (relRootAcc cs pj wbcs jdcs acc) ["nni_node", n] =
          none := by
        simp [relRootAcc, getE, getC, hfreshn]
      have hset : setMk (relRootAcc cs pj wbcs jdcs acc) ["nni_node", n]
          (FsEntry.dir l) =
          some (relRootAcc cs pj wbcs jdcs (setC acc n (FsEntry.dir l))) := by
        simp [relRootAcc, setMk, setC, getC]
      simp only [copyDistEntries, hstep, run_bind, copytreeOp, getRootM,
        hgs, hgd, hset, setRootOr, setRootM, hfold]
      exact ih cs (setC acc n (FsEntry.dir l)) pj wbcs jdcs dl so hsrc2
        (hfresh2 _) hnd2 hshape2

/-- C8: on a workspace holding the compiled manager output `dist` (children
`cs`, distinct names avoiding the later output names), the source manifest,
a web-UI build and a jupyter-extension `dist`, a successful run of the
copy-strategy assembler `copy_nni_node` copies every `dist` entry into
`nni_node` except exactly the build-cache file `nni_manager.tsbuildinfo`,
and writes the (possibly version-rewritten) manifest only into `nni_node`:
the source manifest `ts/nni_manager/package.json` is unchanged while
`nni_node/package.json` holds the rewritten manifest. -/
theorem C8_copy_excludes_cache_and_preserves_manifest (env : Env)
    (version : String) (cs : List (String × FsEntry)) (pj pj1 : JVal)
    (wbcs jdcs : List (String × FsEntry)) (dl so : List String)
    (hnd : (cs.map Prod.fst).Nodup)
    (hshape : ∀ p ∈ cs, (∃ d, p.2 = FsEntry.file d) ∨ (∃ l, p.2 = FsEntry.dir l))
    (hstatic : "static" ∉ cs.map Prod.fst)
    (hjupx : "jupyter-extension" ∉ cs.map Prod.fst)
    (hpkg : "package.json" ∉ cs.map Prod.fst)
    (hman : releaseManifest pj version = Except.ok pj1)
    (hmaj : jupyterLabMajor env ≠ "2")
    (hprod : env.yarnOk ["ts", "nni_manager"] ["--prod", "--cwd", "nni_node"] = true)
    (hfx : env.yarnFx = fun _ _ r => r) :
    ∃ s1, copy_nni_node env version
        { root := relRootAcc cs pj wbcs jdcs [], downloads := dl,
          stdout := so } = (Except.ok (), s1) ∧
      (∀ p ∈ cs, p.1 ≠ "nni_manager.tsbuildinfo" →
        getE s1.root ["nni_node", p.1] = some p.2) ∧
      (∀ p ∈ cs, p.1 = "nni_manager.tsbuildinfo" →
        (∃ d, p.2 = FsEntry.file d) → getE s1.root ["nni_node", p.1] = none) ∧
      getE s1.root ["ts", "nni_manager", "package.json"] =
        some (FsEntry.file (FileData.jsonF pj)) ∧
      getE s1.root ["nni_node", "package.json"] =
        some (FsEntry.file (FileData.jsonF pj1)) := by
  have h1 : getE (relRootAcc cs pj wbcs jdcs []) ["ts", "nni_manager", "dist"] =
      some (FsEntry.dir cs) := by
    simp [relRootAcc, getE, getC]
  have hsrcAll : ∀ p ∈ cs, getC cs p.1 = some p.2 :=
    fun p hp => getC_of_mem_nodup cs p hp hnd
  have hloop := copyDistEntries_run cs cs [] pj wbcs jdcs dl
    (so ++ ["Copying files"]) hsrcAll (fun _ _ => rfl) hnd hshape
  have h2 : getE (relRootAcc cs pj wbcs jdcs (distFold [] cs))
      ["ts", "nni_manager", "package.json"] =
      some (FsEntry.file (FileData.jsonF pj)) := by
    simp [relRootAcc, getE, getC]
  have hF1 : getC (distFold [] cs) "package.json" = none := by
    rw [distFold_notin cs [] "package.json" hpkg]
    rfl
  have h3 : getE (relRootAcc cs pj wbcs jdcs (distFold [] cs))
      ["nni_node", "package.json"] = none := by
    simp [relRootAcc, getE, getC, hF1]
  have h3s : setE (relRootAcc cs pj wbcs jdcs (distFold [] cs))
      ["nni_node", "package.json"] (FsEntry.file (FileData.jsonF pj1)) =
      some (relRootAcc cs pj wbcs jdcs
        (setC (distFold [] cs) "package.json"
          (FsEntry.file (FileData.jsonF pj1)))) := by
    simp [relRootAcc, setE, setC, getC]
  have h4 : getE (relRootAcc cs pj wbcs jdcs
      (setC (distFold [] cs) "package.json"
        (FsEntry.file (FileData.jsonF pj1)))) ["ts", "nni_manager"] =
      some (FsEntry.dir
        [("dist", FsEntry.dir cs),
         ("package.json", FsEntry.file (FileData.jsonF pj))]) := by
    simp [relRootAcc, getE, getC]
  have h5 : getE (relRootAcc cs pj wbcs jdcs
      (setC (distFold [] cs) "package.json"
        (FsEntry.file (FileData.jsonF pj1)))) ["ts", "webui", "build"] =
      some (FsEntry.dir wbcs) := by
    simp [relRootAcc, getE, getC]
  have hA1s : getC (setC (distFold [] cs) "package.json"
      (FsEntry.file (FileData.jsonF pj1))) "static" = none := by
    rw [getC_setC_ne _ _ _ _ (show ("static" : String) ≠ "package.json" by decide),
      distFold_notin cs [] "static" hstatic]
    rfl
  have h5d : getE (relRootAcc cs pj wbcs jdcs
      (setC (distFold [] cs) "package.json"
        (FsEntry.file (FileData.jsonF pj1)))) ["nni_node", "static"] = none := by
    simp [relRootAcc, getE, getC, hA1s]
  have h5s : setMk (relRootAcc cs pj wbcs jdcs
      (setC (distFold [] cs) "package.json"
        (FsEntry.file (FileData.jsonF pj1)))) ["nni_node", "static"]
      (FsEntry.dir wbcs) =
      some (relRootAcc cs pj wbcs jdcs
        (setC (setC (distFold [] cs) "package.json"
          (FsEntry.file (FileData.jsonF pj1))) "static" (FsEntry.dir wbcs))) := by
    simp [relRootAcc, setMk, setC, getC]
  have h6 : existsAt (relRootAcc cs pj wbcs jdcs
      (setC (setC (distFold [] cs) "package.json"
        (FsEntry.file (FileData.jsonF pj1))) "static" (FsEntry.dir wbcs)))
      ["ts", "jupyter_extension", "dist"] = true := by
    simp [existsAt, relRootAcc, getE, getC]
  have hbr : copyJupyterBranch (jupyterLabMajor env) version true =
      JupyterBranch.distDir := by
    simp [copyJupyterBranch, hmaj]
  have h7 : getE (relRootAcc cs pj wbcs jdcs
      (setC (setC (distFold [] cs) "package.json"
        (FsEntry.file (FileData.jsonF pj1))) "static" (FsEntry.dir wbcs)))
      ["ts", "jupyter_extension", "dist"] = some (FsEntry.dir jdcs) := by
    simp [relRootAcc, getE, getC]
  have hA2j : getC (setC (setC (distFold [] cs) "package.json"
      (FsEntry.file (FileData.jsonF pj1))) "static" (FsEntry.dir wbcs))
      "jupyter-extension" = none := by
    rw [getC_setC_ne _ _ _ _ (show ("jupyter-extension" : String) ≠ "static" by decide),
      getC_setC_ne _ _ _ _ (show ("jupyter-extension" : String) ≠ "package.json" by decide),
      distFold_notin cs [] "jupyter-extension" hjupx]
    rfl
  have h7d : getE (relRootAcc cs pj wbcs jdcs
      (setC (setC (distFold [] cs) "package.json"
        (FsEntry.file (FileData.jsonF pj1))) "static" (FsEntry.dir wbcs)))
      ["nni_node", "jupyter-extension"] = none := by
    simp [relRootAcc, getE, getC, hA2j]
  have h7s : setMk (relRootAcc cs pj wbcs jdcs
      (setC (setC (distFold [] cs) "package.json"
        (FsEntry.file (FileData.jsonF pj1))) "static" (FsEntry.dir wbcs)))
      ["nni_node", "jupyter-extension"] (FsEntry.dir jdcs) =
      some (relRootAcc cs pj wbcs jdcs
        (setC (setC (setC (distFold [] cs) "package.json"
          (FsEntry.file (FileData.jsonF pj1))) "static" (FsEntry.dir wbcs))
          "jupyter-extension" (FsEntry.dir jdcs))) := by
    simp [relRootAcc, setMk, setC, getC]
  refine ⟨⟨relRootAcc cs pj wbcs jdcs
      (setC (setC (setC (distFold [] cs) "package.json"
        (FsEntry.file (FileData.jsonF pj1))) "static" (FsEntry.dir wbcs))
        "jupyter-extension" (FsEntry.dir jdcs)),
      dl, so ++ ["Copying files"]⟩, ?_, ?_, ?_, ?_, ?_⟩
  · simp only [copy_nni_node, run_bind, printM, getRootM, h1, hloop, jsonLoad,
      run_pure, h2, liftExc, hman, jsonDump, h3, h3s, setRootOr, setRootM,
      yarnOp, h4, hprod, hfx, eq_self_iff_true, if_true, copytreeOp, h5, h5d,
      h5s, h6, hbr, h7, h7d, h7s]
  · intro p hp hne
    have hkeep : keepDist p.1 p.2 = true := by
      rcases hshape p hp with ⟨d, hd⟩ | ⟨l, hl⟩
      · simp [keepDist, hd, hne]
      · simp [keepDist, hl]
    have hne1 : p.1 ≠ "package.json" :=
      fun he => hpkg (he ▸ List.mem_map.mpr ⟨p, hp, rfl⟩)
    have hne2 : p.1 ≠ "static" :=
      fun he => hstatic (he ▸ List.mem_map.mpr ⟨p, hp, rfl⟩)
    have hne3 : p.1 ≠ "jupyter-extension" :=
      fun he => hjupx (he ▸ List.mem_map.mpr ⟨p, hp, rfl⟩)
    have hval : getC (setC (setC (setC (distFold [] cs) "package.json"
        (FsEntry.file (FileData.jsonF pj1))) "static" (FsEntry.dir wbcs))
        "jupyter-extension" (FsEntry.dir jdcs)) p.1 = some p.2 := by
      rw [getC_setC_ne _ _ _ _ hne3, getC_setC_ne _ _ _ _ hne2,
        getC_setC_ne _ _ _ _ hne1]
      exact distFold_mem cs [] p hp hnd hkeep
    simp [relRootAcc, getE, getC, hval]
  · intro p hp hne hfile
    obtain ⟨d, hd⟩ := hfile
    have hkeep : keepDist p.1 p.2 = false := by
      simp [keepDist, hd, hne]
    have h0 := distFold_excl cs [] p hp hnd hkeep rfl
    rw [hne] at h0
    have hval : getC (setC (setC (setC (distFold [] cs) "package.json"
        (FsEntry.file (FileData.jsonF pj1))) "static" (FsEntry.dir wbcs))
        "jupyter-extension" (FsEntry.dir jdcs)) "nni_manager.tsbuildinfo" =
        none := by
      rw [getC_setC_ne _ _ _ _
          (show ("nni_manager.tsbuildinfo" : String) ≠ "jupyter-extension" by decide),
        getC_setC_ne _ _ _ _
          (show ("nni_manager.tsbuildinfo" : String) ≠ "static" by decide),
        getC_setC_ne _ _ _ _
          (show ("nni_manager.tsbuildinfo" : String) ≠ "package.json" by decide)]
      exact h0
    rw [hne]
    simp [relRootAcc, getE, getC, hval]
  · simp [relRootAcc, getE, getC]
  · have hval : getC (setC (setC (setC (distFold [] cs) "package.json"
        (FsEntry.file (FileData.jsonF pj1))) "static" (FsEntry.dir wbcs))
        "jupyter-extension" (FsEntry.dir jdcs)) "package.json" =
        some (FsEntry.file (FileData.jsonF pj1)) := by
      rw [getC_setC_ne _ _ _ _
          (show ("package.json" : String) ≠ "jupyter-extension" by decide),
        getC_setC_ne _ _ _ _
          (show ("package.json" : String) ≠ "static" by decide)]
      exact getC_setC_self _ _ _
    simp [relRootAcc, getE, getC, hval]

theorem C8_copy_excludes_cache_and_preserves_manifest_witness :
    ∃ s1, copy_nni_node envC4 "1.0"
        { root := relRootAcc
            [("main.js", FsEntry.file (FileData.binF 0)),
             ("nni_manager.tsbuildinfo", FsEntry.file (FileData.binF 1)),
             ("models", FsEntry.dir [])]
            (JVal.jobj []) [] [] [],
          downloads := [], stdout := [] } = (Except.ok (), s1) ∧
      (∀ p ∈ [("main.js", FsEntry.file (FileData.binF 0)),
          ("nni_manager.tsbuildinfo", FsEntry.file (FileData.binF 1)),
          ("models", FsEntry.dir [])],
        p.1 ≠ "nni_manager.tsbuildinfo" →
        getE s1.root ["nni_node", p.1] = some p.2) ∧
      (∀ p ∈ [("main.js", FsEntry.file (FileData.binF 0)),
          ("nni_manager.tsbuildinfo", FsEntry.file (FileData.binF 1)),
          ("models", FsEntry.dir [])],
        p.1 = "nni_manager.tsbuildinfo" →
        (∃ d, p.2 = FsEntry.file d) → getE s1.root ["nni_node", p.1] = none) ∧
      getE s1.root ["ts", "nni_manager", "package.json"] =
        some (FsEntry.file (FileData.jsonF (JVal.jobj []))) ∧
      getE s1.root ["nni_node", "package.json"] =
        some (FsEntry.file (FileData.jsonF
          (JVal.jobj [("version", JVal.jstr "1.0.0")]))) :=
  C8_copy_excludes_cache_and_preserves_manifest envC4 "1.0"
    [("main.js", FsEntry.file (FileData.binF 0)),
     ("nni_manager.tsbuildinfo", FsEntry.file (FileData.binF 1)),
     ("models", FsEntry.dir [])]
    (JVal.jobj []) (JVal.jobj [("version", JVal.jstr "1.0.0")]) [] [] [] []
    (by decide)
    (by
      intro p hp
      fin_cases hp
      · exact Or.inl ⟨FileData.binF 0, rfl⟩
      · exact Or.inl ⟨FileData.binF 1, rfl⟩
      · exact Or.inr ⟨[], rfl⟩)
    (by decide) (by decide) (by decide) rfl (by decide) (by decide) rfl

end SetupTs


